import Mathlib

/-!
# Verification of the Vandura Spreadsheet Ingestion & Normalization Engine

Shallow embedding of `src/server/services/ExcelParser.ts` (class `ExcelParser`)
and `src/lib/date-utils.ts` of the Vandura repository, together with theorems
settling the claims C1..C10 about the engine.

Modelling conventions:
* Spreadsheet cell values are `CellVal`: a string, a JavaScript number
  (modelled as an exact rational `Rat`; `NaN`/`Infinity` are represented by
  `Option` results of the numeric conversion functions), a JavaScript `Date`,
  or the empty/null cell.
* A JavaScript `Date` (`JSDate`) is its epoch-milliseconds value.  The model
  fixes the host timezone at UTC offset 0, so local-time constructors and
  accessors (`new Date(y, m, d)`, `getFullYear`, ...) coincide with the civil
  calendar computations below.  All claims under verification are
  offset-independent (they concern civil fields of locally constructed dates,
  or raw millisecond values).
* `new Date(ms)` applies the ECMAScript `TimeClip`: values of magnitude above
  8.64e15 ms give an invalid date (modelled as `none`); fractional inputs are
  truncated toward zero.
* JavaScript's generic string date parsing (`new Date(string)`, the final
  fallback of `ExcelParser.parseDate`) is host-defined; it is threaded through
  as an explicit function parameter `native : String → Option JSDate`, and all
  theorems hold for every such function.
-/

set_option maxRecDepth 4000

/- The library marks rational arithmetic `irreducible`, which blocks `decide`
on concrete inputs; the kernel itself ignores reducibility, so restoring the
default is sound and lets closed evaluations go through. -/
set_option allowUnsafeReducibility true in
attribute [semireducible] Rat.mul Rat.add Rat.sub Rat.inv

namespace Vandura

/-! ## Characters and strings (JS semantics helpers) -/

/-- JS whitespace for `trim` / `\s` (ASCII subset; spreadsheet cells contain
no exotic Unicode whitespace in the behaviours claimed). -/
def isWS (c : Char) : Bool :=
  c = ' ' ∨ c = '\t' ∨ c = '\n' ∨ c = '\r' ∨ c = '\x0b' ∨ c = '\x0c'

def isDigit (c : Char) : Bool := '0' ≤ c ∧ c ≤ '9'

def digitVal (c : Char) : Nat := c.toNat - '0'.toNat

/-- `String.toLowerCase` (ASCII). -/
def lowerChar (c : Char) : Char :=
  if 'A' ≤ c ∧ c ≤ 'Z' then Char.ofNat (c.toNat + 32) else c

def lowerL (l : List Char) : List Char := l.map lowerChar

/-- JS `String.prototype.trim`. -/
def trimL (l : List Char) : List Char :=
  ((l.dropWhile isWS).reverse.dropWhile isWS).reverse

/-- Collapse runs of whitespace to a single space (`replace(/\s+/g, ' ')`);
the flag records whether the previous character was whitespace. -/
def collapseAux : Bool → List Char → List Char
  | _, [] => []
  | inWS, c :: rest =>
    if isWS c then
      if inWS then collapseAux true rest else ' ' :: collapseAux true rest
    else c :: collapseAux false rest

def collapseWS (l : List Char) : List Char := collapseAux false l

/-- Strip a trailing run of colons/whitespace: `replace(/[:\s]+$/g, '')`. -/
def dropTrailColonWS (l : List Char) : List Char :=
  (l.reverse.dropWhile (fun c => c = ':' ∨ isWS c)).reverse

def strL (s : String) : List Char := s.data

def ofL (l : List Char) : String := ⟨l⟩

/-- Substring test (`String.prototype.includes`). -/
def isSubL (needle hay : List Char) : Bool :=
  match hay with
  | [] => needle.isEmpty
  | _ :: t => needle.isPrefixOf hay || isSubL needle t

def strIncludes (hay needle : String) : Bool := isSubL (strL needle) (strL hay)

def strStarts (s pre : String) : Bool := (strL pre).isPrefixOf (strL s)

def jsTrim (s : String) : String := ofL (trimL (strL s))

def jsLower (s : String) : String := ofL (lowerL (strL s))

/-! ## JS numbers as exact rationals -/

/-- Value of a decimal digit run. -/
def digitsVal (l : List Char) : Nat :=
  l.foldl (fun acc c => acc * 10 + digitVal c) 0

/-- Fractional value of a digit run read after the decimal point. -/
def fracVal (l : List Char) : Rat :=
  (digitsVal l : Rat) / ((10 : Rat) ^ l.length)

/-- Decimal number body: `digits [. digits]` / `digits.` / `.digits`
(JS `Number` accepts all three; at least one digit overall). -/
def decBody (l : List Char) : Option Rat :=
  let intPart := l.takeWhile isDigit
  let rest := l.dropWhile isDigit
  match rest with
  | [] => if intPart.isEmpty then none else some (digitsVal intPart : Rat)
  | '.' :: frac =>
    if frac.all isDigit then
      if intPart.isEmpty ∧ frac.isEmpty then none
      else some ((digitsVal intPart : Rat) + fracVal frac)
    else none
  | _ => none

/-- Decimal body with optional exponent `e`/`E` part. -/
def decBodyExp (l : List Char) : Option Rat :=
  match l.span (fun c => c ≠ 'e' ∧ c ≠ 'E') with
  | (mant, []) => decBody mant
  | (mant, _ :: expPart) =>
    match decBody mant with
    | none => none
    | some m =>
      let (sgn, ds) : Rat × List Char :=
        match expPart with
        | '+' :: t => (1, t)
        | '-' :: t => (-1, t)
        | t => (1, t)
      if ds.isEmpty ∨ ¬ ds.all isDigit then none
      else some (m * (10 : Rat) ^ (((sgn * digitsVal ds) : Rat).num))

/-- JS `Number(string)` restricted to finite results, as an exact rational.
`none` stands for `NaN` (and for the non-finite `Infinity` results, which the
parser treats identically via `Number.isFinite`).  Models decimal literals
with optional sign and exponent; the exotic `0x`/`0b`/`0o` literal forms do
not occur in the spreadsheet layouts under verification and map to `none`. -/
def jsNumber (s : String) : Option Rat :=
  let t := trimL (strL s)
  match t with
  | [] => some 0                 -- Number('') and Number('   ') are 0
  | '+' :: body => decBodyExp body
  | '-' :: body => (decBodyExp body).map (fun q => -q)
  | body => decBodyExp body

/-- JS `parseInt(s, 10)`: skip whitespace, optional sign, then the longest
leading run of decimal digits; `none` stands for `NaN`. -/
def jsParseIntStr (s : String) : Option Int :=
  let t := (strL s).dropWhile isWS
  let (sgn, body) : Int × List Char :=
    match t with
    | '+' :: r => (1, r)
    | '-' :: r => (-1, r)
    | r => (1, r)
  let digs := body.takeWhile isDigit
  if digs.isEmpty then none else some (sgn * digitsVal digs)

/-! ## The JavaScript `Date` model -/

/-- Milliseconds per day. -/
def msPerDay : Int := 86400000

/-- ECMAScript `Date` range bound (`TimeClip`): 8.64e15 ms. -/
def maxJSTime : Rat := 8640000000000000

/-- A JS `Date` object is its (integral) epoch-milliseconds time value.
The model fixes the host timezone at offset 0, so the "local" accessors
below read the civil fields straight off the time value. -/
structure JSDate where
  ms : Int
deriving DecidableEq, Repr

/-- Floor of a rational as an integer (the denominator is positive). -/
def ratFloorZ (q : Rat) : Int := q.num.fdiv q.den

/-- Truncation toward zero of a rational (ECMAScript `ToIntegerOrInfinity`). -/
def ratTrunc (q : Rat) : Int := if q < 0 then -((-q.num).fdiv q.den) else q.num.fdiv q.den

/-- ECMAScript `TimeClip`: dates more than 8.64e15 ms from the epoch are
invalid (`none`); otherwise the time value is truncated to an integer. -/
def timeClip (t : Rat) : Option JSDate :=
  if |t| ≤ maxJSTime then some ⟨ratTrunc t⟩ else none

/-- Civil-from-days (Gregorian, proleptic): day number 0 = 1970-01-01.
Returns `(year, month 1..12, day 1..31)`. -/
def civilFromDays (z0 : Int) : Int × Int × Int :=
  let z := z0 + 719468
  let era := z.fdiv 146097
  let doe := z - era * 146097
  let yoe := (doe - doe.fdiv 1460 + doe.fdiv 36524 - doe.fdiv 146096).fdiv 365
  let y := yoe + era * 400
  let doy := doe - (365 * yoe + yoe.fdiv 4 - yoe.fdiv 100)
  let mp := (5 * doy + 2).fdiv 153
  let d := doy - (153 * mp + 2).fdiv 5 + 1
  let m := if mp < 10 then mp + 3 else mp - 9
  (if m ≤ 2 then y + 1 else y, m, d)

/-- Days-from-civil (Gregorian, proleptic), inverse of `civilFromDays` on
valid triples. -/
def daysFromCivil (y m d : Int) : Int :=
  let y := if m ≤ 2 then y - 1 else y
  let era := y.fdiv 400
  let yoe := y - era * 400
  let mp := if m > 2 then m - 3 else m + 9
  let doy := (153 * mp + 2).fdiv 5 + d - 1
  let doe := yoe * 365 + yoe.fdiv 4 - yoe.fdiv 100 + doy
  era * 146097 + doe - 719468

/-- `new Date(year, month0, day)` at local midnight (month0 is 0-based and,
like the day, may lie outside its usual range: JS normalizes by field
overflow, modelled by the `fdiv`/`emod` month split and the day offset).
The result goes through `TimeClip` like every constructed date. -/
def mkDateYMD (y m0 d : Int) : Option JSDate :=
  let ym := y * 12 + m0
  let yy := ym.fdiv 12
  let mm := ym.emod 12
  let days := daysFromCivil yy (mm + 1) 1 + (d - 1)
  timeClip ((days * msPerDay : Int) : Rat)

def JSDate.dayNumber (d : JSDate) : Int := d.ms.fdiv msPerDay

def JSDate.timeOfDay (d : JSDate) : Int := d.ms.emod msPerDay

def JSDate.getFullYear (d : JSDate) : Int := (civilFromDays d.dayNumber).1

/-- `getMonth` (0-based like JS). -/
def JSDate.getMonth (d : JSDate) : Int := (civilFromDays d.dayNumber).2.1 - 1

def JSDate.getDate (d : JSDate) : Int := (civilFromDays d.dayNumber).2.2

/-- `x.setDate(x.getDate() + delta)`: move by whole days, keeping the time of
day (weekly-grid day columns only move a week-ending date by a few days, so
the `TimeClip` re-check is omitted: it never fires there). -/
def JSDate.addDays (d : JSDate) (delta : Int) : JSDate :=
  ⟨d.ms + delta * msPerDay⟩

/-! ## Spreadsheet cell values -/

/-- A spreadsheet cell value as seen by the parser: a string, a JS number
(exact rational), a JS `Date`, or null/undefined/absent (`empty`). -/
inductive CellVal where
  | str (s : String)
  | num (q : Rat)
  | date (d : JSDate)
  | empty
deriving DecidableEq, Repr

/-- `normalizeCell` from `parseFile`:
`typeof v === 'string' ? v.toLowerCase().trim().replace(/\s+/g, ' ').replace(/[:\s]+$/g, '') : ''`. -/
def normalizeCell : CellVal → String
  | .str s => ofL (dropTrailColonWS (collapseWS (trimL (lowerL (strL s)))))
  | _ => ""

/-- JS truthiness of a cell value (`!v` negated). -/
def truthy : CellVal → Bool
  | .str s => s ≠ ""
  | .num q => q ≠ 0
  | .date _ => true
  | .empty => false

def truthyOpt : Option CellVal → Bool
  | some v => truthy v
  | none => false

/-- Decimal digits of the fractional part of `r/d` (`r < d`), by long
division.  Fuel-bounded; JS doubles always have terminating decimal
expansions, so within the modelled value space this is exact. -/
def fracDigits : Nat → Nat → Nat → List Char
  | 0, _, _ => []
  | _ + 1, 0, _ => []
  | fuel + 1, r, d =>
    let r10 := r * 10
    Char.ofNat ('0'.toNat + r10 / d) :: fracDigits fuel (r10 % d) d

/-- Plain decimal rendering of a JS number (`String(n)` / `n.toString()`). -/
def ratToDecString (q : Rat) : String :=
  let sign := if q < 0 then "-" else ""
  let n := q.num.natAbs
  let fr := fracDigits 64 (n % q.den) q.den
  sign ++ toString (n / q.den) ++ (if fr.isEmpty then "" else "." ++ ofL fr)

/-- JS string conversion of a cell value, as used in template literals and
`String(v)`.  A `Date` stringifies to a locale-dependent text whose exact
content is never inspected by the behaviours under verification; it is
rendered from the time value. -/
def cellToString : CellVal → String
  | .str s => s
  | .num q => ratToDecString q
  | .date d => "Date(" ++ toString d.ms ++ ")"
  | .empty => "null"

/-- `String(v ?? '').trim()` / `typeof v === 'string' ? v.trim() : ...`
(used for grid project/task cells and candidate names). -/
def cellTrimStr : CellVal → String
  | .str s => jsTrim s
  | .empty => ""
  | v => jsTrim (cellToString v)

/-- `parseInt(v.toString(), 10)`; `none` is `NaN`. -/
def jsParseIntCell : CellVal → Option Int
  | .str s => jsParseIntStr s
  | .num q => jsParseIntStr (ratToDecString q)
  | .date d => jsParseIntStr (cellToString (.date d))
  | .empty => none

/-! ## Regex matchers of `parseDate` / `parseTime` -/

/-- Anchored `/^\d+(?:\.\d+)?$/`. -/
def matchNumericStr (l : List Char) : Bool :=
  let ip := l.takeWhile isDigit
  let rest := l.dropWhile isDigit
  !ip.isEmpty && (rest.isEmpty || (match rest with
    | '.' :: fr => !fr.isEmpty && fr.all isDigit
    | _ => false))

/-- Anchored `/^(\d{4})-(\d{1,2})-(\d{1,2})$/`, returning the three groups. -/
def matchYMD (l : List Char) : Option (Int × Int × Int) :=
  let y := l.takeWhile isDigit
  let r1 := l.dropWhile isDigit
  if y.length = 4 then
    match r1 with
    | '-' :: r2 =>
      let m := r2.takeWhile isDigit
      let r3 := r2.dropWhile isDigit
      if 1 ≤ m.length ∧ m.length ≤ 2 then
        match r3 with
        | '-' :: r4 =>
          if 1 ≤ r4.length ∧ r4.length ≤ 2 ∧ r4.all isDigit then
            some ((digitsVal y : Int), (digitsVal m : Int), (digitsVal r4 : Int))
          else none
        | _ => none
      else none
    | _ => none
  else none

/-- Anchored `/^(\d{1,2})\/(\d{1,2})\/(\d{4})$/`, returning the groups. -/
def matchSlash (l : List Char) : Option (Int × Int × Int) :=
  let a := l.takeWhile isDigit
  let r1 := l.dropWhile isDigit
  if 1 ≤ a.length ∧ a.length ≤ 2 then
    match r1 with
    | '/' :: r2 =>
      let b := r2.takeWhile isDigit
      let r3 := r2.dropWhile isDigit
      if 1 ≤ b.length ∧ b.length ≤ 2 then
        match r3 with
        | '/' :: r4 =>
          if r4.length = 4 ∧ r4.all isDigit then
            some ((digitsVal a : Int), (digitsVal b : Int), (digitsVal r4 : Int))
          else none
        | _ => none
      else none
    | _ => none
  else none

/-- `\d{1,2}` followed by a separator char, greedy (deterministic since a
digit is never the separator). Returns the digit token and the rest. -/
def digits12SepTok (sep : Char) : List Char → Option (List Char × List Char)
  | a :: b :: c :: rest =>
    if isDigit a ∧ isDigit b ∧ c = sep then some ([a, b], rest)
    else if isDigit a ∧ b = sep then some ([a], c :: rest)
    else none
  | [a, b] => if isDigit a ∧ b = sep then some ([a], []) else none
  | _ => none

/-- Trailing `\d{1,2}`, greedy, no right context required. -/
def digits12EndTok : List Char → Option (List Char)
  | a :: b :: _ =>
    if isDigit a ∧ isDigit b then some [a, b]
    else if isDigit a then some [a] else none
  | [a] => if isDigit a then some [a] else none
  | [] => none

/-- `\d{4}-\d{1,2}-\d{1,2}` matched at the head of `l` (the token text). -/
def ymdTokenAt (l : List Char) : Option (List Char) :=
  match l with
  | a :: b :: c :: d :: '-' :: r =>
    if (a :: b :: c :: [d]).all isDigit then
      match digits12SepTok '-' r with
      | some (mtok, r2) =>
        (digits12EndTok r2).map
          (fun dtok => [a, b, c, d] ++ '-' :: mtok ++ '-' :: dtok)
      | none => none
    else none
  | _ => none

/-- `\d{1,2}\/\d{1,2}\/\d{4}` matched at the head of `l` (the token text). -/
def slashTokenAt (l : List Char) : Option (List Char) :=
  match digits12SepTok '/' l with
  | some (atok, r1) =>
    match digits12SepTok '/' r1 with
    | some (btok, r2) =>
      match r2 with
      | a :: b :: c :: d :: _ =>
        if (a :: b :: c :: [d]).all isDigit then
          some (atok ++ '/' :: btok ++ '/' :: [a, b, c, d])
        else none
      | _ => none
    | none => none
  | none => none

/-- The unanchored search
`/(\d{4}-\d{1,2}-\d{1,2})|(\d{1,2}\/\d{1,2}\/\d{4})/` used to pick embedded
dates out of week-ending labels and day-column headers: leftmost match, first
alternative preferred, returning `m[0]`. -/
def findDateToken : List Char → Option String
  | [] => none
  | l@(_ :: t) =>
    match ymdTokenAt l with
    | some tok => some (ofL tok)
    | none =>
      match slashTokenAt l with
      | some tok => some (ofL tok)
      | none => findDateToken t

/-! ## `parseDate`, `parseTime`, `calculateDuration` -/

/-- `ExcelParser.parseDate`.  `native` models the host's generic
`new Date(string)` parsing used as the final fallback; every theorem below
holds for an arbitrary `native`. -/
def parseDate (native : String → Option JSDate) : CellVal → Option JSDate
  | .num n => timeClip ((n - 25569) * 86400000)
  | .date d => some d
  | .empty => none
  | .str s0 =>
    let s := jsTrim s0
    if s = "" then none
    else if matchNumericStr (strL s) then
      match jsNumber s with
      | none => none
      | some n =>
        if 20000 ≤ n ∧ n ≤ 80000 then timeClip ((n - 25569) * 86400000)
        else none
    else
      match matchYMD (strL s) with
      | some (y, m, d) => mkDateYMD y (m - 1) d
      | none =>
        match matchSlash (strL s) with
        | some (a, b, y) =>
          if 12 < a ∧ 1 ≤ b ∧ b ≤ 12 then mkDateYMD y (b - 1) a
          else if 12 < b ∧ 1 ≤ a ∧ a ≤ 12 then mkDateYMD y (a - 1) b
          else mkDateYMD y (a - 1) b
        | none => native s

/-- `result.setHours(hours, minutes, 0, 0)` on a copy of `date`. -/
def setHM (d : JSDate) (h m : Int) : JSDate :=
  ⟨d.dayNumber * msPerDay + h * 3600000 + m * 60000⟩

/-- `/^(\d{1,2})(\d{2})$/` (compact `HHMM`). -/
def matchHHMM (l : List Char) : Option (Nat × Nat) :=
  if l.all isDigit then
    match l.length with
    | 3 => some (digitsVal (l.take 1), digitsVal (l.drop 1))
    | 4 => some (digitsVal (l.take 2), digitsVal (l.drop 2))
    | _ => none
  else none

/-- `/^(\d{1,2}):(\d{2})(?::(\d{2}))?(?:\s*(AM|PM))?$/i`; returns
(hours, minutes, am/pm marker in lowercase). -/
def matchColonTime (l : List Char) : Option (Nat × Nat × Option String) :=
  match digits12SepTok ':' l with
  | none => none
  | some (htok, r) =>
    match r with
    | m1 :: m2 :: r2 =>
      if isDigit m1 ∧ isDigit m2 then
        let afterSec : Option (List Char) :=
          match r2 with
          | ':' :: s1 :: s2 :: r3 =>
            if isDigit s1 ∧ isDigit s2 then some r3 else none
          | _ => if (match r2 with | ':' :: _ => true | _ => false) then none else some r2
        match afterSec with
        | none => none
        | some r3 =>
          if r3.isEmpty then some (digitsVal htok, digitsVal [m1, m2], none)
          else
            let r4 := lowerL (r3.dropWhile isWS)
            if r4 = ['a', 'm'] then some (digitsVal htok, digitsVal [m1, m2], some "am")
            else if r4 = ['p', 'm'] then some (digitsVal htok, digitsVal [m1, m2], some "pm")
            else none
      else none
    | _ => none

/-- `ExcelParser.parseTime`: a `Date` passes through; a string is matched
against the two time patterns; any other value makes `timeStr.trim()` throw,
which the surrounding `try` turns into `null`. -/
def parseTime (date : JSDate) : CellVal → Option JSDate
  | .date t => some t
  | .str s =>
    let l := strL (jsTrim s)
    match matchColonTime l with
    | some (h, m, ampm) =>
      let h' : Int :=
        if ampm = some "pm" ∧ h < 12 then (h : Int) + 12
        else if ampm = some "am" ∧ h = 12 then 0
        else (h : Int)
      some (setHM date h' m)
    | none =>
      match matchHHMM l with
      | some (h, m) => some (setHM date h m)
      | none => none
  | _ => none

/-- `calculateDuration` from `date-utils.ts`: whole minutes,
`Math.floor((end - start) / 60000)`. -/
def calculateDuration (s e : JSDate) : Int := (e.ms - s.ms).fdiv 60000

/-! ## `normalizeColumnNames` and the row validator `parseRow` -/

/-- Key normalization in `normalizeColumnNames`:
`key.toLowerCase().trim().replace(/\s+/g, ' ')` (no trailing-colon strip). -/
def normalizeKey (k : String) : String := ofL (collapseWS (trimL (lowerL (strL k))))

structure NormalizedRow where
  developer : Option CellVal := none
  project : Option CellVal := none
  task : Option CellVal := none
  date : Option CellVal := none
  startTime : Option CellVal := none
  endTime : Option CellVal := none
  durationMinutes : Option CellVal := none
  notes : Option CellVal := none
deriving DecidableEq, Repr

/-- One key/value assignment of `normalizeColumnNames` (the if/else-if
chain; the first matching branch wins for a key, later keys overwrite
earlier assignments of the same field). -/
def assignField (acc : NormalizedRow) (kv : String × CellVal) : NormalizedRow :=
  let lowerKey := normalizeKey kv.1
  let value := kv.2
  if lowerKey = "developer" ∨ lowerKey = "developer name" ∨ lowerKey = "dev" ∨
      lowerKey = "resource" ∨ lowerKey = "employee" then
    { acc with developer := some value }
  else if lowerKey = "project" ∨ lowerKey = "project name" ∨ lowerKey = "proj" ∨
      lowerKey = "project code" then
    { acc with project := some value }
  else if lowerKey = "task" ∨ lowerKey = "task name" ∨ strIncludes lowerKey "activity" then
    { acc with task := some value }
  else if lowerKey = "date" ∨ strIncludes lowerKey "work date" then
    { acc with date := some value }
  else if lowerKey = "start" ∨ lowerKey = "start time" ∨ lowerKey = "begin" then
    { acc with startTime := some value }
  else if lowerKey = "end" ∨ lowerKey = "end time" ∨ lowerKey = "finish" then
    { acc with endTime := some value }
  else if strIncludes lowerKey "duration" ∨ strIncludes lowerKey "minutes" ∨
      lowerKey = "mins" ∨ lowerKey = "min" then
    { acc with durationMinutes := some value }
  else if strIncludes lowerKey "note" ∨ strIncludes lowerKey "desc" ∨
      strIncludes lowerKey "comment" ∨ lowerKey = "notes" then
    { acc with notes := some value }
  else acc

/-- `ExcelParser.normalizeColumnNames`: a row object as an association list
(keys in object order). -/
def normalizeColumnNames (row : List (String × CellVal)) : NormalizedRow :=
  row.foldl assignField {}

/-- Blank-cell test of the separator-row check:
`v === null || v === undefined || v === '' || (typeof v === 'string' && !v.trim())`. -/
def isBlankVal : CellVal → Bool
  | .empty => true
  | .str s => jsTrim s = ""
  | _ => false

/-- `Object.values(normalized)` (fields that were assigned). -/
def presentVals (nd : NormalizedRow) : List CellVal :=
  [nd.developer, nd.project, nd.task, nd.date, nd.startTime, nd.endTime,
   nd.durationMinutes, nd.notes].filterMap id

/-- Skip test for blank/separator rows (`values.length === 0 || values.every(...)`). -/
def isBlankRow (nd : NormalizedRow) : Bool :=
  (presentVals nd).all isBlankVal

/-- `normalized.developer || opts?.defaultDeveloper` as a cell value
(`empty` when both are absent/falsy-undefined). -/
def devNameOf (defaultDeveloper : Option String) (nd : NormalizedRow) : CellVal :=
  if truthyOpt nd.developer then nd.developer.getD .empty
  else
    match defaultDeveloper with
    | some s => .str s
    | none => .empty

/-- Guard for the explicit-duration branch:
`v !== undefined && v !== null && v !== ''`. -/
def durGuard : Option CellVal → Bool
  | none => false
  | some .empty => false
  | some (.str s) => s ≠ ""
  | some _ => true

/-- `durationMinutes <= 0` where `none` is `NaN` (`NaN <= 0` is false). -/
def durNonPositive : Option Int → Bool
  | some d => d ≤ 0
  | none => false

/-- `durationMinutes % 15 !== 0` where `none` is `NaN` (`NaN % 15` is `NaN`,
which differs from 0; JS `%` truncates like `Int.tmod`). -/
def durNotMultOf15 : Option Int → Bool
  | some d => Int.tmod d 15 ≠ 0
  | none => true

/-- Duration resolution (`parseRow`, explicit duration preferred, start/end
fallback second): `.ok none` is a `NaN` duration. -/
def resolveDuration (date : JSDate) (nd : NormalizedRow) : Except String (Option Int) :=
  if durGuard nd.durationMinutes then
    .ok (jsParseIntCell (nd.durationMinutes.getD .empty))
  else if truthyOpt nd.startTime ∧ truthyOpt nd.endTime then
    match parseTime date (nd.startTime.getD .empty),
          parseTime date (nd.endTime.getD .empty) with
    | some s, some e => .ok (some (calculateDuration s e))
    | _, _ => .error "Invalid start or end time"
  else .error "Must provide either duration or start/end times"

/-- The validated output of one row: the Time Entry Candidate together with
its preview projection (both carry the same name-keyed fields here; entity
IDs live in the external store and are outside this model). -/
structure EntryOut where
  developer : CellVal
  project : CellVal
  task : Option CellVal
  startTime : JSDate
  durationMinutes : Int
  notes : Option CellVal
deriving DecidableEq, Repr

/-- `ExcelParser.parseRow`: `.ok none` = skipped blank row, `.error m` =
row-level failure (thrown and caught by `parseRows`), `.ok (some e)` =
validated entry. -/
def parseRow (native : String → Option JSDate) (defaultDeveloper : Option String)
    (row : List (String × CellVal)) : Except String (Option EntryOut) :=
  let nd := normalizeColumnNames row
  if isBlankRow nd then .ok none
  else
    let developerName := devNameOf defaultDeveloper nd
    if ¬ truthy developerName then .error "Missing developer name"
    else if ¬ truthyOpt nd.project then .error "Missing project name"
    else if ¬ truthyOpt nd.date then .error "Missing date"
    else
      match parseDate native (nd.date.getD .empty) with
      | none => .error ("Invalid date: " ++ cellToString (nd.date.getD .empty))
      | some date =>
        match resolveDuration date nd with
        | .error e => .error e
        | .ok dur? =>
          if durNonPositive dur? then .error "Duration must be greater than 0"
          else if durNotMultOf15 dur? then .error "Duration must be a multiple of 15 minutes"
          else
            let startTime :=
              if truthyOpt nd.startTime then
                (parseTime date (nd.startTime.getD .empty)).getD date
              else date
            .ok (some
              { developer := developerName
                project := nd.project.getD .empty
                task := nd.task
                startTime := startTime
                durationMinutes := dur?.getD 0
                notes := if truthyOpt nd.notes then nd.notes else none })

/-! ## `shouldIgnoreProjectToken` -/

def strEnds (s suf : String) : Bool := (strL suf).isSuffixOf (strL s)

/-- Lengths of the digit groups of `digits sep digits sep digits` (anchored). -/
def threeGroups (sep : Char) (l : List Char) : Option (Nat × Nat × Nat) :=
  let a := l.takeWhile isDigit
  match l.dropWhile isDigit with
  | c :: r1 =>
    if c = sep then
      let b := r1.takeWhile isDigit
      match r1.dropWhile isDigit with
      | c2 :: r2 =>
        if c2 = sep ∧ r2.all isDigit ∧ ¬ r2.isEmpty then
          some (a.length, b.length, r2.length)
        else none
      | [] => none
    else none
  | [] => none

/-- `/^\d{4}-\d{2}-\d{2}$/`. -/
def isDateLikeYMDStrict (l : List Char) : Bool :=
  match threeGroups '-' l with
  | some (4, 2, 2) => true
  | _ => false

/-- `/^\d{1,2}\/\d{1,2}\/\d{2,4}$/`. -/
def isDateLikeSlash (l : List Char) : Bool :=
  match threeGroups '/' l with
  | some (a, b, c) => 1 ≤ a && a ≤ 2 && 1 ≤ b && b ≤ 2 && 2 ≤ c && c ≤ 4
  | none => false

/-- `/^\d{1,2}-\d{1,2}-\d{2,4}$/`. -/
def isDateLikeDash (l : List Char) : Bool :=
  match threeGroups '-' l with
  | some (a, b, c) => 1 ≤ a && a ≤ 2 && 1 ≤ b && b ≤ 2 && 2 ≤ c && c ≤ 4
  | none => false

/-- `ExcelParser.shouldIgnoreProjectToken`. -/
def shouldIgnoreProjectToken (value : String) : Bool :=
  let v := jsTrim value
  if v = "" then true
  else
    let lower := jsLower v
    if lower = "project code" then true
    else if strStarts lower "daily totals" then true
    else if strIncludes lower "week ending" then true
    else if strIncludes lower "total" ∨ strIncludes lower "subtotal" then true
    else if isDateLikeYMDStrict (strL v) then true
    else if isDateLikeSlash (strL v) then true
    else if isDateLikeDash (strL v) then true
    else if strEnds lower ":" ∧
        (strIncludes lower "total" ∨ strIncludes lower "subtotal" ∨ strIncludes lower "daily") then
      true
    else false

/-! ## `parseRows` -/

inductive Mode where
  | preview
  | importMode
deriving DecidableEq, Repr

/-- `typeof raw === 'string' ? raw.trim() : raw !== null && raw !== undefined
? String(raw).trim() : ''`. -/
def cellTrimStrOpt : Option CellVal → String
  | none => ""
  | some .empty => ""
  | some (.str s) => jsTrim s
  | some v => jsTrim (cellToString v)

/-- `Set` insertion (JS `Set` keeps insertion order). -/
def setAdd (l : List String) (s : String) : List String :=
  if s ∈ l then l else l ++ [s]

/-- Lexicographic (code-point) string order, the model of
`(a, b) => a.localeCompare(b)` (locale collation refinements do not affect
any verified claim). -/
def strLtL : List Char → List Char → Bool
  | [], [] => false
  | [], _ :: _ => true
  | _ :: _, [] => false
  | a :: as, b :: bs =>
    if a.toNat < b.toNat then true
    else if b.toNat < a.toNat then false
    else strLtL as bs

def insSorted (s : String) : List String → List String
  | [] => [s]
  | x :: t => if strLtL (strL s) (strL x) then s :: x :: t else x :: insSorted s t

def sortStrs (l : List String) : List String := l.foldr insSorted []

structure RowsState where
  entries : List EntryOut := []
  developerCandidates : List String := []
  projectCandidates : List String := []
  preview : List EntryOut := []
  errors : List String := []
deriving Repr

/-- One iteration of the `parseRows` loop (candidate harvesting happens
before the row parse; a thrown row error becomes a `"Row {n}: ..."` entry). -/
def parseRowsStep (native : String → Option JSDate) (defaultDeveloper : Option String)
    (st : RowsState) (iRow : Nat × List (String × CellVal)) : RowsState :=
  let rowNum := iRow.1
  let row := iRow.2
  let normalizedForDev := normalizeColumnNames row
  let devCandidateRaw : Option CellVal :=
    match defaultDeveloper with
    | some s => some (.str s)
    | none => normalizedForDev.developer
  let devCandidate := cellTrimStrOpt devCandidateRaw
  let st :=
    if devCandidate ≠ "" then
      { st with developerCandidates := setAdd st.developerCandidates devCandidate }
    else st
  let proj := cellTrimStrOpt normalizedForDev.project
  let st :=
    if proj ≠ "" ∧ ¬ shouldIgnoreProjectToken proj then
      { st with projectCandidates := setAdd st.projectCandidates proj }
    else st
  match parseRow native defaultDeveloper row with
  | .ok none => st
  | .ok (some parsed) =>
    { st with
      entries := st.entries ++ [parsed]
      preview := if st.preview.length < 10 then st.preview ++ [parsed] else st.preview }
  | .error m =>
    { st with errors := st.errors ++ ["Row " ++ toString rowNum ++ ": " ++ m] }

/-- Row numbers `firstDataRowNumber + i` paired with the rows. -/
def numberRows (firstDataRowNumber : Nat) (rows : List (List (String × CellVal))) :
    List (Nat × List (String × CellVal)) :=
  (rows.enum).map (fun p => (firstDataRowNumber + p.1, p.2))

/-- The final Parse Result (entity IDs are external; entries stay
name-keyed as in preview mode). -/
structure ParseResult where
  entries : List EntryOut
  sheetName : Option String := none
  detectedDeveloper : Option String
  developers : List String
  projectsAll : List String
  projectsInvalid : List String
  preview : List EntryOut
  errors : List String
  warnings : List String
deriving Repr

/-- `ExcelParser.parseRows`.  `projectExists` models the external entity
store's existence check used in preview mode. -/
def parseRows (native : String → Option JSDate) (projectExists : String → Bool)
    (rows : List (List (String × CellVal))) (defaultDeveloper : Option String)
    (firstDataRowNumber : Nat) (mode : Mode) : ParseResult :=
  let st := (numberRows firstDataRowNumber rows).foldl
    (parseRowsStep native defaultDeveloper) {}
  let sheetDev : Option String :=
    match defaultDeveloper with
    | some s => if jsTrim s ≠ "" then some (jsTrim s) else none
    | none => none
  let detectedDeveloper : Option String :=
    match sheetDev with
    | some s => some s
    | none =>
      match st.developerCandidates with
      | [d] => some d
      | _ => none
  let allProjects := sortStrs st.projectCandidates
  let invalidProjects :=
    if mode = Mode.preview ∧ allProjects ≠ [] then
      allProjects.filter (fun p => ¬ projectExists p)
    else []
  let errors :=
    if mode = Mode.preview ∧ allProjects ≠ [] ∧ invalidProjects ≠ [] then
      ("Invalid projects (" ++ toString invalidProjects.length ++ "/" ++
        toString allProjects.length ++ "): " ++ String.intercalate ", " invalidProjects)
        :: st.errors
    else st.errors
  { entries := st.entries
    detectedDeveloper := detectedDeveloper
    developers := match detectedDeveloper with | some d => [d] | none => []
    projectsAll := allProjects
    projectsInvalid := invalidProjects
    preview := st.preview
    errors := errors
    warnings := [] }

/-! ## The weekly-grid converter `convertWeeklyGridToRowObjects` -/

def getRow (matrix : List (List CellVal)) (r : Nat) : List CellVal := matrix.getD r []

def getCell (matrix : List (List CellVal)) (r c : Nat) : CellVal :=
  (getRow matrix r).getD c .empty

/-- `isNumberLike`: a finite number, or a non-blank string whose `Number`
conversion is finite. -/
def isNumberLike : CellVal → Bool
  | .num _ => true
  | .str s => jsTrim s ≠ "" ∧ (jsNumber s).isSome
  | _ => false

/-- `toNumber`: `typeof v === 'number' ? v : Number(String(v).trim())`. -/
def toNumber : CellVal → Option Rat
  | .num q => some q
  | v => jsNumber (jsTrim (cellToString v))

/-- The hour value a grid day cell contributes, when it is number-like. -/
def cellHours (v : CellVal) : Option Rat :=
  if isNumberLike v then toNumber v else none

/-- JS `Math.round` (ties upward: `floor(x + 1/2)`). -/
def jsRound (q : Rat) : Int := ratFloorZ (q + 1 / 2)

/-- `weekdayAliases` (token → day index, 0 = Monday .. 6 = Sunday). -/
def weekdayAlias (s : String) : Option Nat :=
  if s = "mon" ∨ s = "monday" then some 0
  else if s = "tue" ∨ s = "tues" ∨ s = "tuesday" then some 1
  else if s = "wed" ∨ s = "wednesday" then some 2
  else if s = "thu" ∨ s = "thur" ∨ s = "thurs" ∨ s = "thursday" then some 3
  else if s = "fri" ∨ s = "friday" then some 4
  else if s = "sat" ∨ s = "saturday" then some 5
  else if s = "sun" ∨ s = "sunday" then some 6
  else none

/-- First space-separated token (`cell.split(' ')[0]`, cell already
whitespace-collapsed by `normalizeCell`). -/
def firstTok (s : String) : String := ofL ((strL s).takeWhile (· ≠ ' '))

/-- Day columns detected in one row: `(dayIndex, column)`, in column order. -/
def rowDayCols (row : List CellVal) : List (Nat × Nat) :=
  (row.enum).filterMap (fun p =>
    let cell := normalizeCell p.2
    if cell = "" then none
    else (weekdayAlias (firstTok cell)).map (fun idx => (idx, p.1)))

/-- De-duplicate by day index, keeping the first (leftmost) occurrence. -/
def dedupByDay (l : List (Nat × Nat)) : List (Nat × Nat) :=
  l.foldl (fun acc p => if acc.any (fun q => q.1 = p.1) then acc else acc ++ [p]) []

/-- Step 1: first row (among the first 30) holding at least 5 distinct
weekday labels, with its de-duplicated day columns. -/
def findGridHeader (matrix : List (List CellVal)) : Option (Nat × List (Nat × Nat)) :=
  (List.range (min 30 matrix.length)).findSome? (fun r =>
    let cols := rowDayCols (getRow matrix r)
    if 5 ≤ ((cols.map Prod.fst).dedup).length then some (r, dedupByDay cols) else none)

/-- Step 1 fallback: first row (among the first 40) containing a literal
`project code` header cell. -/
def findProjectCodeHeaderRow (matrix : List (List CellVal)) : Option Nat :=
  (List.range (min 40 matrix.length)).findSome? (fun r =>
    if (getRow matrix r).any (fun v => normalizeCell v = "project code") then some r
    else none)

/-- Fallback day columns of the `Project Code` anchor: columns E–K are
Sat..Fri. -/
def fallbackDayCols : List (Nat × Nat) :=
  [(5, 4), (6, 5), (0, 6), (1, 7), (2, 8), (3, 9), (4, 10)]

/-- Step 2, one cell: week-ending date from a label + adjacent cell, or a
date embedded in the label cell itself (which overwrites the former). -/
def weekEndingCell (native : String → Option JSDate) (row : List CellVal) (c : Nat) :
    Option JSDate :=
  let cellRaw := row.getD c .empty
  let cell := normalizeCell cellRaw
  if cell = "" then none
  else
    let fromLabel :=
      if strIncludes cell "week ending" ∨ strIncludes cell "week ending date" ∨
          strIncludes cell "week of" then
        parseDate native (row.getD (c + 1) .empty)
      else none
    let fromEmbedded :=
      match cellRaw with
      | .str raw =>
        match findDateToken (strL raw) with
        | some tok =>
          match parseDate native (.str tok) with
          | some p =>
            if strIncludes cell "week" ∨ strIncludes cell "ending" then some p else none
          | none => none
        | none => none
      | _ => none
    match fromEmbedded with
    | some p => some p
    | none => fromLabel

/-- Step 2: scan the first 20 rows for a week-ending anchor date. -/
def scanWeekEnding (native : String → Option JSDate) (matrix : List (List CellVal)) :
    Option JSDate :=
  (List.range (min 20 matrix.length)).findSome? (fun r =>
    let row := getRow matrix r
    (List.range row.length).findSome? (weekEndingCell native row))

/-- Step 3: explicit date of one day column (embedded in the header text,
else parsed from the cell right below the header). -/
def explicitDayDate (native : String → Option JSDate) (matrix : List (List CellVal))
    (headerRow col : Nat) : Option JSDate :=
  let headerCell := getCell matrix headerRow col
  let headerStr := match headerCell with | .str s => s | _ => ""
  let direct := (findDateToken (strL headerStr)).bind (fun tok => parseDate native (.str tok))
  match direct with
  | some d => some d
  | none => parseDate native (getCell matrix (headerRow + 1) col)

/-- Guard of step 4's data-start choice: the value below the header parses
as a date in a plausible calendar year (2000–2100). -/
def isPlausibleHeaderDate (native : String → Option JSDate) (v : CellVal) : Bool :=
  match parseDate native v with
  | none => false
  | some d => 2000 ≤ d.getFullYear ∧ d.getFullYear ≤ 2100

/-- Sheet-level developer rescan of the grid converter (first 30 rows;
within a row, a later label/value pair overwrites an earlier one because the
inner loop has no early exit). -/
def gridDevInRow (row : List CellVal) : Option String :=
  (row.enum).foldl (fun acc p =>
    let label := normalizeCell p.2
    if label = "name" ∨ label = "developer" ∨ label = "developer name" then
      match row.getD (p.1 + 1) .empty with
      | .str s => if jsTrim s ≠ "" then some (jsTrim s) else acc
      | _ => acc
    else acc) none

def scanGridDeveloper (matrix : List (List CellVal)) : Option String :=
  (List.range (min 30 matrix.length)).findSome? (fun r => gridDevInRow (getRow matrix r))

structure GridLoopState where
  outRows : List (List (String × CellVal)) := []
  warnings : List String := []
deriving Repr

/-- The synthesized Normalized Row of one positive grid cell:
`{Developer, Project, Task, Date, Duration: Math.round(hours * 60)}`. -/
def gridRowObj (gridDeveloper : Option String) (project task : String)
    (date : JSDate) (h : Rat) : List (String × CellVal) :=
  [("Developer", .str (gridDeveloper.getD "")),
   ("Project", .str project),
   ("Task", .str task),
   ("Date", .date date),
   ("Duration", .num ((jsRound (h * 60) : Int) : Rat))]

/-- Step 5, one day column of one data row: synthesize a row object when the
cell holds a positive finite numeric hour value; a missing day date only
yields a warning. -/
def gridDayStep (dayDates : List (Nat × JSDate)) (gridDeveloper : Option String)
    (project task : String) (row : List CellVal) (st : GridLoopState)
    (dc : Nat × Nat) : GridLoopState :=
  let v := row.getD dc.2 .empty
  match cellHours v with
  | none => st
  | some h =>
    if h ≤ 0 then st
    else
      match dayDates.lookup dc.1 with
      | none =>
        { st with warnings := st.warnings ++
            ["Could not determine date for day index " ++ toString dc.1 ++ "; skipping some cells."] }
      | some date =>
        { st with outRows := st.outRows ++ [gridRowObj gridDeveloper project task date h] }

/-- Step 5, one data row: blank rows, total/subtotal rows and rows lacking a
project or task label are skipped (contributing nothing); otherwise each day
column is processed in order. -/
def gridRowStep (dayCols : List (Nat × Nat)) (dayDates : List (Nat × JSDate))
    (projectCol taskCol : Nat) (gridDeveloper : Option String)
    (st : GridLoopState) (row : List CellVal) : GridLoopState :=
  let project := cellTrimStr (row.getD projectCol .empty)
  let task := cellTrimStr (row.getD taskCol .empty)
  let isRowBlank := project = "" ∧ task = "" ∧
    dayCols.all (fun dc => ¬ isNumberLike (row.getD dc.2 .empty))
  if isRowBlank then st
  else
    let lowerProject := jsLower project
    let lowerTask := jsLower task
    if strIncludes lowerProject "total" ∨ strIncludes lowerTask "total" ∨
        strIncludes lowerProject "subtotal" ∨ strIncludes lowerTask "subtotal" then st
    else if project = "" ∨ task = "" then st
    else dayCols.foldl (gridDayStep dayDates gridDeveloper project task row) st

structure GridResult where
  rows : List (List (String × CellVal))
  errors : List String
  warnings : List String
  defaultDeveloper : Option String
  firstDataRowNumber : Nat
deriving Repr

/-- Steps 2–5 of the converter, once a header row and day columns are fixed. -/
def convertWithHeader (native : String → Option JSDate) (matrix : List (List CellVal))
    (defaultDeveloper : Option String) (headerRow : Nat) (dayCols : List (Nat × Nat)) :
    GridResult :=
  let weekEnding := scanWeekEnding native matrix
  let explicitDates := dayCols.filterMap (fun dc =>
    (explicitDayDate native matrix headerRow dc.2).map (fun d => (dc.1, d)))
  if explicitDates = [] ∧ weekEnding = none then
    { rows := []
      errors :=
        ["Weekly grid detected, but could not determine the calendar dates for each weekday column.",
         "Please include a “Week Ending” date on the sheet (or put actual dates in/near the weekday headers)."]
      warnings := []
      defaultDeveloper := defaultDeveloper
      firstDataRowNumber := headerRow + 2 }
  else
    let dayDates : List (Nat × JSDate) :=
      if explicitDates ≠ [] then explicitDates
      else
        match weekEnding with
        | none => []
        | some we =>
          let endingCol := (dayCols.map Prod.snd).foldl max 0
          dayCols.map (fun dc => (dc.1, we.addDays ((dc.2 : Int) - (endingCol : Int))))
    let header := (getRow matrix headerRow).map normalizeCell
    let projectCol? := header.findIdx? (fun s =>
      strIncludes s "project" ∨ strIncludes s "client" ∨ strIncludes s "job")
    let taskColScan? := header.findIdx? (fun s =>
      strIncludes s "task" ∨ strIncludes s "activity" ∨ strIncludes s "work item" ∨
      strIncludes s "workitem" ∨ strIncludes s "description" ∨ strIncludes s "role" ∨
      strIncludes s "story" ∨ strIncludes s "card")
    let taskCol? :=
      match taskColScan?, projectCol? with
      | none, some pc => if pc + 1 < header.length then some (pc + 1) else none
      | t, _ => t
    let colErrors :=
      (if projectCol?.isNone then
        ["Weekly grid detected, but could not detect the Project column in the header row."]
       else []) ++
      (if taskCol?.isNone then
        ["Weekly grid detected, but could not detect the Task/Activity column in the header row."]
       else [])
    if colErrors ≠ [] then
      { rows := []
        errors := colErrors
        warnings := []
        defaultDeveloper := defaultDeveloper
        firstDataRowNumber := headerRow + 2 }
    else
      let projectCol := projectCol?.getD 0
      let taskCol := taskCol?.getD 0
      let dataStartRow :=
        if dayCols.any (fun dc =>
            isPlausibleHeaderDate native (getCell matrix (headerRow + 1) dc.2)) then
          headerRow + 2
        else headerRow + 1
      let gridDeveloper :=
        match defaultDeveloper with
        | some s => if s ≠ "" then some s else scanGridDeveloper matrix
        | none => scanGridDeveloper matrix
      let warnings0 :=
        if gridDeveloper = none then
          ["Developer name not found on the sheet; rows may fail if the grid has no per-row developer column."]
        else []
      let finalState := (matrix.drop dataStartRow).foldl
        (gridRowStep dayCols dayDates projectCol taskCol gridDeveloper)
        { outRows := [], warnings := warnings0 }
      let outDev :=
        match gridDeveloper with
        | some g => some g
        | none => defaultDeveloper
      if finalState.outRows = [] then
        { rows := []
          errors :=
            ["Weekly grid detected but no day cells with positive hours were found to import.",
             "Make sure weekday cells contain numeric hours (e.g. 0.25, 1.5, 2)."]
          warnings := finalState.warnings
          defaultDeveloper := outDev
          firstDataRowNumber := dataStartRow + 1 }
      else
        { rows := finalState.outRows
          errors := []
          warnings := finalState.warnings
          defaultDeveloper := outDev
          firstDataRowNumber := dataStartRow + 1 }

/-- `ExcelParser.convertWeeklyGridToRowObjects`. -/
def convertWeeklyGridToRowObjects (native : String → Option JSDate)
    (matrix : List (List CellVal)) (defaultDeveloper : Option String) : GridResult :=
  match findGridHeader matrix with
  | some (hr, dayCols) => convertWithHeader native matrix defaultDeveloper hr dayCols
  | none =>
    match findProjectCodeHeaderRow matrix with
    | some hr => convertWithHeader native matrix defaultDeveloper hr fallbackDayCols
    | none =>
      { rows := []
        errors :=
          ["Weekly grid detected, but could not find a header row with weekday columns (Mon..Fri) or a Project Code header."]
        warnings := []
        defaultDeveloper := defaultDeveloper
        firstDataRowNumber := 2 }

/-! ## Sheet analysis and selection (`parseFile`, `analyzeSheet`) -/

def headerTokens : List String :=
  ["developer", "developer name", "dev", "resource", "employee",
   "project", "project name", "proj",
   "task", "task name", "activity",
   "date", "work date", "start", "start time", "begin", "end", "end time", "finish",
   "duration", "minutes", "minute", "mins", "min", "hours", "hrs",
   "notes", "note", "desc", "description", "comment"]

def weekdayTokens : List String :=
  ["mon", "monday", "tue", "tues", "tuesday", "wed", "wednesday",
   "thu", "thur", "thurs", "thursday", "fri", "friday", "sat", "saturday",
   "sun", "sunday"]

def normStr (s : String) : String := normalizeCell (.str s)

/-- Best header-row candidate: `(row index or -1, match count)`; a row wins
only with a strictly greater count, so the first row attaining the maximum
is kept. -/
def bestHeader (matrix : List (List CellVal)) : Int × Nat :=
  (List.range (min 15 matrix.length)).foldl (fun best r =>
    let cells := ((getRow matrix r).map normalizeCell).filter (· ≠ "")
    let matchCount := (cells.filter (fun c => headerTokens.any (fun t => strIncludes c t))).length
    if matchCount > best.2 then ((r : Int), matchCount) else best) (-1, 0)

/-- Sheet-level developer detection of `analyzeSheet` (first 30 rows, first
label/value pair in row-major order; the inner loop breaks on success). -/
def analyzeDevInRow (row : List CellVal) : Option String :=
  (row.enum).findSome? (fun p =>
    let label := normalizeCell p.2
    if label = "developer" ∨ label = "developer name" ∨ label = "name" ∨
        label = "resource" ∨ label = "employee" then
      match row.getD (p.1 + 1) .empty with
      | .str s => if jsTrim s ≠ "" then some (jsTrim s) else none
      | _ => none
    else none)

def analyzeDefaultDeveloper (matrix : List (List CellVal)) : Option String :=
  (List.range (min 30 matrix.length)).findSome? (fun r => analyzeDevInRow (getRow matrix r))

/-- A weekday label cell exists in the first 20 rows. -/
def looksLikeWeeklyGridB (matrix : List (List CellVal)) : Bool :=
  (matrix.take 20).any (fun row => row.any (fun v => weekdayTokens.contains (normalizeCell v)))

def hasWeekEndingLabelB (matrix : List (List CellVal)) : Bool :=
  (matrix.take 20).any (fun row => row.any (fun v => strIncludes (normalizeCell v) "week ending"))

def hasProjectCodeHeaderB (matrix : List (List CellVal)) : Bool :=
  (matrix.take 30).any (fun row => row.any (fun v => normalizeCell v = "project code"))

/-- Count of hour-like cells (numeric value in `(0, 24]`) in the first 120
rows and 30 columns. -/
def hourLikeCount (matrix : List (List CellVal)) : Nat :=
  ((matrix.take 120).map (fun row =>
    ((row.take 30).filter (fun v =>
      match (match v with | .num q => some q | .str s => jsNumber s | _ => none) with
      | some n => decide (0 < n ∧ n ≤ 24)
      | none => false)).length)).sum

def isMetadataName (name : String) : Bool :=
  let n := jsLower name
  strIncludes n "variable" ∨ strIncludes n "lookup" ∨ strIncludes n "list" ∨
  strIncludes n "config" ∨ strIncludes n "settings" ∨ strIncludes n "meta"

structure SheetAnalysis where
  name : String
  matrix : List (List CellVal)
  bestHeaderRow : Int
  bestMatchCount : Nat
  defaultDeveloper : Option String
  looksLikeWeeklyGrid : Bool
  score : Int
deriving Repr

/-- `analyzeSheet` of `parseFile`. -/
def analyzeSheet (name : String) (matrix : List (List CellVal)) : SheetAnalysis :=
  let bh := bestHeader matrix
  let defaultDeveloper := analyzeDefaultDeveloper matrix
  let looksLikeWeeklyGrid := looksLikeWeeklyGridB matrix
  let namePenalty : Int := if isMetadataName name then 2 else 0
  let score : Int :=
    (bh.2 : Int) +
    (if looksLikeWeeklyGrid then 3 else 0) +
    (if hasWeekEndingLabelB matrix then 2 else 0) +
    (if hasProjectCodeHeaderB matrix then 2 else 0) +
    (if 3 ≤ hourLikeCount matrix then 2 else 0) +
    (if defaultDeveloper.isSome then 1 else 0) -
    namePenalty
  { name := name, matrix := matrix, bestHeaderRow := bh.1, bestMatchCount := bh.2,
    defaultDeveloper := defaultDeveloper, looksLikeWeeklyGrid := looksLikeWeeklyGrid,
    score := score }

/-- The comparison of the selection `reduce`: strictly higher score wins,
equal score with strictly more header matches wins, otherwise the earlier
sheet is kept. -/
def pick (b cur : SheetAnalysis) : SheetAnalysis :=
  if cur.score > b.score then cur
  else if cur.score = b.score ∧ cur.bestMatchCount > b.bestMatchCount then cur
  else b

/-- The `reduce` step of sheet selection. -/
def selectStep (best : Option SheetAnalysis) (cur : SheetAnalysis) : Option SheetAnalysis :=
  match best with
  | none => some cur
  | some b => some (pick b cur)

/-- Sheet selection over a workbook (named sheets in order). -/
def selectSheet (sheets : List (String × List (List CellVal))) : Option SheetAnalysis :=
  (sheets.map (fun p => analyzeSheet p.1 p.2)).foldl selectStep none

/-! ## `extractProjectCodesFromMatrix`, `finalize` and the `parseFile` pipeline -/

def dedupList (l : List String) : List String := l.foldl setAdd []

/-- `ExcelParser.extractProjectCodesFromMatrix`. -/
def extractProjectCodesFromMatrix (matrix : List (List CellVal)) : List String :=
  let anchor := (List.range (min 40 matrix.length)).findSome? (fun r =>
    ((getRow matrix r).enum).findSome? (fun p =>
      if normalizeCell p.2 = "project code" then some (r, p.1) else none))
  match anchor with
  | none => []
  | some (hr, pc) =>
    let codes := (matrix.drop (hr + 1)).foldl (fun acc row =>
      let code := cellTrimStr (row.getD pc .empty)
      if code = "" then acc
      else if shouldIgnoreProjectToken code then acc
      else setAdd acc code) []
    sortStrs codes

/-- `finalize` of `parseFile`: merge matrix-extracted project codes into the
detected project list, re-validate in preview mode and re-synthesize the
workbook-level `Invalid projects` error line. -/
def finalize (mode : Mode) (projectExists : String → Bool) (sheetName : String)
    (projectCodesFromMatrix : List String) (parsed : ParseResult) : ParseResult :=
  let mergedAll :=
    if parsed.projectsAll = [] ∧ projectCodesFromMatrix ≠ [] then projectCodesFromMatrix
    else if projectCodesFromMatrix ≠ [] then
      sortStrs (dedupList (parsed.projectsAll ++ projectCodesFromMatrix))
    else parsed.projectsAll
  let invalid :=
    if mode = Mode.preview ∧ mergedAll ≠ [] then
      mergedAll.filter (fun p => ¬ projectExists p)
    else parsed.projectsInvalid
  let filteredErrors := parsed.errors.filter (fun e => ¬ strStarts e "Invalid projects (")
  let errors :=
    if mode = Mode.preview ∧ invalid ≠ [] then
      ("Invalid projects (" ++ toString invalid.length ++ "/" ++
        toString mergedAll.length ++ "): " ++ String.intercalate ", " invalid)
        :: filteredErrors
    else filteredErrors
  { parsed with
      sheetName := some sheetName
      projectsAll := mergedAll
      projectsInvalid := invalid
      errors := errors }

/-- Keys of the first five extracted row objects (a JS `Set`, insertion
order). -/
def keysFromFirstRows (rows : List (List (String × CellVal))) : List String :=
  dedupList (((rows.take 5).map (fun r => r.map Prod.fst)).flatten)

def hasRecognizableHeadersB (rows : List (List (String × CellVal))) : Bool :=
  (keysFromFirstRows rows).any (fun k => headerTokens.any (fun t => strIncludes (normStr k) t))

def hasDateColumnB (rows : List (List (String × CellVal))) : Bool :=
  (keysFromFirstRows rows).any (fun k =>
    normStr k = "date" ∨ strIncludes (normStr k) "work date")

def hasDurationColumnB (rows : List (List (String × CellVal))) : Bool :=
  (keysFromFirstRows rows).any (fun k =>
    strIncludes (normStr k) "duration" ∨ strIncludes (normStr k) "minutes" ∨
    normStr k = "mins" ∨ normStr k = "min" ∨ strIncludes (normStr k) "hours" ∨
    normStr k = "hrs")

def hasStartColumnB (rows : List (List (String × CellVal))) : Bool :=
  (keysFromFirstRows rows).any (fun k =>
    normStr k = "start" ∨ normStr k = "start time" ∨ normStr k = "begin")

def hasEndColumnB (rows : List (List (String × CellVal))) : Bool :=
  (keysFromFirstRows rows).any (fun k =>
    normStr k = "end" ∨ normStr k = "end time" ∨ normStr k = "finish")

def looksLikeWeeklyGridByKeysB (rows : List (List (String × CellVal))) : Bool :=
  (keysFromFirstRows rows).any (fun k => weekdayTokens.contains (firstTok (normStr k))) ∧
  ¬ hasDateColumnB rows ∧ ¬ hasDurationColumnB rows ∧
  ¬ (hasStartColumnB rows ∧ hasEndColumnB rows)

def looksLikeWeeklyGridByMatrixB (sel : SheetAnalysis)
    (rows : List (List (String × CellVal))) : Bool :=
  (sel.looksLikeWeeklyGrid ∨ hasProjectCodeHeaderB sel.matrix) ∧
  ¬ hasDateColumnB rows ∧ ¬ hasDurationColumnB rows ∧
  ¬ (hasStartColumnB rows ∧ hasEndColumnB rows)

/-- Whether `parseFile` routes the sheet through the weekly-grid converter
(either detection at the top, or the retry inside the unrecognizable-headers
branch). -/
def gridPathTaken (sel : SheetAnalysis) (rows : List (List (String × CellVal))) : Bool :=
  looksLikeWeeklyGridByKeysB rows ∨ looksLikeWeeklyGridByMatrixB sel rows ∨
  (¬ hasRecognizableHeadersB rows ∧ looksLikeWeeklyGridB sel.matrix)

/-- Whether `parseFile` ends in a workbook-structure failure: the grid
converter reported errors, or no grid was recognizable and no header row was
recognizable either. -/
def structureFailed (native : String → Option JSDate) (sel : SheetAnalysis)
    (rows : List (List (String × CellVal))) : Bool :=
  if gridPathTaken sel rows then
    (convertWeeklyGridToRowObjects native sel.matrix sel.defaultDeveloper).errors ≠ []
  else ¬ hasRecognizableHeadersB rows

/-- The early return of `parseFile` when grid conversion failed. -/
def gridErrorResult (sel : SheetAnalysis) (converted : GridResult)
    (projectCodes : List String) : ParseResult :=
  let dev := match converted.defaultDeveloper with
    | some d => some d
    | none => sel.defaultDeveloper
  { entries := []
    sheetName := some sel.name
    detectedDeveloper := dev
    developers := match dev with | some d => if d ≠ "" then [d] else [] | none => []
    projectsAll := projectCodes
    projectsInvalid := projectCodes
    preview := []
    errors := converted.errors
    warnings := converted.warnings }

/-- The return of `parseFile` when no header row and no weekly grid are
recognizable. -/
def noHeaderResult (sel : SheetAnalysis) (projectCodes : List String)
    (gridHint : Bool) : ParseResult :=
  { entries := []
    sheetName := some sel.name
    detectedDeveloper := sel.defaultDeveloper
    developers := match sel.defaultDeveloper with
      | some d => if d ≠ "" then [d] else []
      | none => []
    projectsAll := projectCodes
    projectsInvalid := projectCodes
    preview := []
    errors :=
      ["Could not detect a header row with the expected columns. Expected columns like Developer, Project, Task, Date, Duration (or Start/End), Notes.",
       if gridHint then
         "It looks like this file is a weekly grid (Mon/Tue/Wed columns). If import fails, ensure the sheet includes a “Week Ending” date (or actual dates in/near the weekday headers)."
       else
         "If your timesheet is a weekly grid (e.g. Mon/Tue/Wed columns), ensure it includes a “Week Ending” date (or actual dates in/near the weekday headers)."]
    warnings := [] }

/-- `ExcelParser.parseFile` after workbook reading and sheet extraction: the
selected sheet's analysis plus the extracted row objects determine the final
Parse Result.  (Workbook-byte decoding and `sheet_to_json` belong to the
`xlsx` library and are outside the verified core; the pipeline is verified
for arbitrary extraction results.) -/
def parseFilePipeline (native : String → Option JSDate) (projectExists : String → Bool)
    (mode : Mode) (sel : SheetAnalysis) (rows : List (List (String × CellVal))) :
    ParseResult :=
  let projectCodes := extractProjectCodesFromMatrix sel.matrix
  let usedHeaderRow : Int := if 2 ≤ sel.bestMatchCount then sel.bestHeaderRow else -1
  let firstDataRowNumber : Nat := if 0 ≤ usedHeaderRow then usedHeaderRow.toNat + 2 else 2
  if gridPathTaken sel rows then
    let converted := convertWeeklyGridToRowObjects native sel.matrix sel.defaultDeveloper
    if converted.errors ≠ [] then gridErrorResult sel converted projectCodes
    else
      finalize mode projectExists sel.name projectCodes
        (parseRows native projectExists converted.rows
          (match converted.defaultDeveloper with
           | some d => some d
           | none => sel.defaultDeveloper)
          converted.firstDataRowNumber mode)
  else if ¬ hasRecognizableHeadersB rows then
    noHeaderResult sel projectCodes (looksLikeWeeklyGridB sel.matrix)
  else
    finalize mode projectExists sel.name projectCodes
      (parseRows native projectExists rows sel.defaultDeveloper firstDataRowNumber mode)

/-! ## General lemmas -/

theorem strStarts_append (p m : String) : strStarts (p ++ m) p = true := by
  simp [strStarts, strL]

theorem strStarts_of_append_left {s p1 p2 : String} (h : strStarts s (p1 ++ p2) = true) :
    strStarts s p1 = true := by
  simp only [strStarts, strL] at h ⊢
  rw [List.isPrefixOf_iff_prefix] at h ⊢
  rw [String.data_append] at h
  exact (List.prefix_append _ _).trans h

/-- A concrete generic-parse fallback used by closed witnesses and
counterexamples (the host parser's behaviour is irrelevant there: the inputs
never reach the fallback). -/
def nativeNone : String → Option JSDate := fun _ => none

/-! ## Claim C10: grid rows with an empty project or task are dropped silently -/

/-- **C10.** In weekly-grid conversion, a data row whose project cell or task
cell is empty after trimming leaves the loop state untouched: no synthesized
rows, no errors (the loop never writes errors), and no warnings — whatever
its weekday columns contain. -/
theorem spec_C10 (dayCols : List (Nat × Nat)) (dayDates : List (Nat × JSDate))
    (projectCol taskCol : Nat) (gridDeveloper : Option String) (st : GridLoopState)
    (row : List CellVal)
    (h : cellTrimStr (row.getD projectCol .empty) = "" ∨
         cellTrimStr (row.getD taskCol .empty) = "") :
    gridRowStep dayCols dayDates projectCol taskCol gridDeveloper st row = st := by
  unfold gridRowStep
  dsimp only
  split_ifs with h1 h2 <;> rfl

/-- Witness for C10: a concrete row with a positive hour value (5 h in a day
column) but a whitespace-only project cell contributes nothing. -/
def gridSkipRow : List CellVal := [.str "  ", .str "T1", .str "5"]

theorem spec_C10_witness :
    gridRowStep [(0, 2)] [(0, ⟨1770249600000⟩)] 0 1 (some "Dev") {} gridSkipRow = {} ∧
    cellHours (gridSkipRow.getD 2 .empty) = some 5 :=
  ⟨spec_C10 [(0, 2)] [(0, ⟨1770249600000⟩)] 0 1 (some "Dev") {} gridSkipRow
    (Or.inl (by decide)), by decide⟩

/-! ## Claim C9: non-numeric explicit durations fail the multiple-of-15 check -/

/-- **C9.** A row whose explicit duration cell passes the presence guard but
does not parse as a number (`parseInt` gives `NaN`) is rejected with exactly
`"Duration must be a multiple of 15 minutes"` — not the greater-than-0
message and not a dedicated invalid-duration message — and the start/end
fallback is never attempted (the conclusion holds for arbitrary start/end
cells, even unparseable ones). -/
theorem spec_C9 (native : String → Option JSDate) (dd : Option String)
    (row : List (String × CellVal)) (date : JSDate)
    (h1 : isBlankRow (normalizeColumnNames row) = false)
    (h2 : truthy (devNameOf dd (normalizeColumnNames row)) = true)
    (h3 : truthyOpt (normalizeColumnNames row).project = true)
    (h4 : truthyOpt (normalizeColumnNames row).date = true)
    (h5 : parseDate native ((normalizeColumnNames row).date.getD .empty) = some date)
    (h6 : durGuard (normalizeColumnNames row).durationMinutes = true)
    (h7 : jsParseIntCell ((normalizeColumnNames row).durationMinutes.getD .empty) = none) :
    parseRow native dd row = .error "Duration must be a multiple of 15 minutes" := by
  unfold parseRow resolveDuration
  simp only [h1, h2, h3, h4, h5, h6, h7, Bool.false_eq_true, if_false, not_true_eq_false,
    if_true, durNonPositive, durNotMultOf15]

/-- Witness for C9: duration `"abc"`, with unparseable start/end cells that
would raise `"Invalid start or end time"` if the fallback were attempted. -/
def rowBadDur : List (String × CellVal) :=
  [("Developer", .str "A"), ("Project", .str "P"), ("Date", .str "2026-02-05"),
   ("Duration", .str "abc"), ("Start", .str "xx"), ("End", .str "yy")]

theorem spec_C9_witness :
    parseRow nativeNone none rowBadDur = .error "Duration must be a multiple of 15 minutes" :=
  spec_C9 nativeNone none rowBadDur ⟨1770249600000⟩ (by decide) (by decide) (by decide)
    (by decide) (by decide) (by decide) (by decide)

/-! ## Claim C1: duration validation -/

/-- Once the field guards pass and the date parses, `parseRow` is the
duration stage followed by entry construction. -/
theorem parseRow_reduce (native : String → Option JSDate) (dd : Option String)
    (row : List (String × CellVal)) (date : JSDate)
    (h1 : isBlankRow (normalizeColumnNames row) = false)
    (h2 : truthy (devNameOf dd (normalizeColumnNames row)) = true)
    (h3 : truthyOpt (normalizeColumnNames row).project = true)
    (h4 : truthyOpt (normalizeColumnNames row).date = true)
    (h5 : parseDate native ((normalizeColumnNames row).date.getD .empty) = some date) :
    parseRow native dd row =
      match resolveDuration date (normalizeColumnNames row) with
      | .error e => .error e
      | .ok dur? =>
        if durNonPositive dur? then .error "Duration must be greater than 0"
        else if durNotMultOf15 dur? then .error "Duration must be a multiple of 15 minutes"
        else
          .ok (some
            { developer := devNameOf dd (normalizeColumnNames row)
              project := (normalizeColumnNames row).project.getD .empty
              task := (normalizeColumnNames row).task
              startTime :=
                if truthyOpt (normalizeColumnNames row).startTime then
                  (parseTime date ((normalizeColumnNames row).startTime.getD .empty)).getD date
                else date
              durationMinutes := dur?.getD 0
              notes := if truthyOpt (normalizeColumnNames row).notes then
                  (normalizeColumnNames row).notes
                else none }) := by
  unfold parseRow
  simp only [h1, h2, h3, h4, h5, Bool.false_eq_true, if_false, not_true_eq_false, if_true]

/-- **C1.** Whenever a row's duration resolves to an integer `d`, the row is
accepted only if `d > 0` and `d % 15 == 0`; `d ≤ 0` is rejected with a
message containing "greater than 0", and a positive non-multiple of 15 with
a message containing "multiple of 15 minutes"; and every emitted Time Entry
Candidate has `durationMinutes > 0` and `durationMinutes % 15 == 0`. -/
theorem spec_C1 :
    (∀ (native : String → Option JSDate) (dd : Option String)
        (row : List (String × CellVal)) (d : Int) (date : JSDate),
      isBlankRow (normalizeColumnNames row) = false →
      truthy (devNameOf dd (normalizeColumnNames row)) = true →
      truthyOpt (normalizeColumnNames row).project = true →
      truthyOpt (normalizeColumnNames row).date = true →
      parseDate native ((normalizeColumnNames row).date.getD .empty) = some date →
      resolveDuration date (normalizeColumnNames row) = .ok (some d) →
      (d ≤ 0 →
        ∃ m, parseRow native dd row = .error m ∧ strIncludes m "greater than 0" = true) ∧
      (0 < d → d % 15 ≠ 0 →
        ∃ m, parseRow native dd row = .error m ∧ strIncludes m "multiple of 15 minutes" = true) ∧
      (0 < d → d % 15 = 0 →
        ∃ out, parseRow native dd row = .ok (some out) ∧ out.durationMinutes = d)) ∧
    (∀ (native : String → Option JSDate) (dd : Option String)
        (row : List (String × CellVal)) (out : EntryOut),
      parseRow native dd row = .ok (some out) →
      0 < out.durationMinutes ∧ out.durationMinutes % 15 = 0) := by
  have tmod15 : ∀ d : Int, 0 < d → (Int.tmod d 15 = 0 ↔ d % 15 = 0) := by
    intro d hd
    rw [Int.tmod_eq_emod hd.le (by norm_num)]
  constructor
  · intro native dd row d date h1 h2 h3 h4 h5 h6
    rw [parseRow_reduce native dd row date h1 h2 h3 h4 h5, h6]
    refine ⟨?_, ?_, ?_⟩
    · intro hd
      refine ⟨"Duration must be greater than 0", ?_, by decide⟩
      simp [durNonPositive, hd]
    · intro hd hmod
      have ht : Int.tmod d 15 ≠ 0 := fun h => hmod ((tmod15 d hd).mp h)
      refine ⟨"Duration must be a multiple of 15 minutes", ?_, by decide⟩
      simp [durNonPositive, durNotMultOf15, not_le_of_lt hd, ht]
    · intro hd hmod
      have ht : Int.tmod d 15 = 0 := (tmod15 d hd).mpr hmod
      have e1 : durNonPositive (some d) = false := by
        simp [durNonPositive, not_le_of_lt hd]
      have e2 : durNotMultOf15 (some d) = false := by
        simp [durNotMultOf15, ht]
      dsimp only
      rw [e1, e2]
      simp only [Bool.false_eq_true, if_false]
      exact ⟨_, rfl, rfl⟩
  · intro native dd row out h
    unfold parseRow at h
    dsimp only at h
    split at h
    · exact absurd h (by simp)
    · split at h
      · exact absurd h (by simp)
      · split at h
        · exact absurd h (by simp)
        · split at h
          · exact absurd h (by simp)
          · split at h
            · exact absurd h (by simp)
            · rename_i date hdate
              split at h
              · exact absurd h (by simp)
              · rename_i dur? hdur
                split at h
                · exact absurd h (by simp)
                · split at h
                  · exact absurd h (by simp)
                  · rename_i hpos hmod
                    match hdur' : dur? with
                    | none => simp [hdur', durNotMultOf15] at hmod
                    | some d =>
                      subst hdur'
                      have hd : 0 < d := by
                        simp only [durNonPositive, decide_eq_true_eq] at hpos
                        omega
                      have hm : d.tmod 15 = 0 := by
                        simp only [durNotMultOf15, ne_eq] at hmod
                        simpa using hmod
                      have hout : out.durationMinutes = d := by
                        injection h with h'
                        injection h' with h''
                        rw [← h'']
                        rfl
                      rw [hout]
                      exact ⟨hd, (tmod15 d hd).mp hm⟩

/-- Witness for C1: a 37-minute row is rejected with the multiple-of-15
message, and a 60-minute row is accepted with `durationMinutes = 60`. -/
def rowDur37 : List (String × CellVal) :=
  [("Developer", .str "A"), ("Project", .str "P"), ("Date", .str "2026-02-05"),
   ("Duration", .str "37")]

def rowDur60 : List (String × CellVal) :=
  [("Developer", .str "A"), ("Project", .str "P"), ("Date", .str "2026-02-05"),
   ("Duration", .str "60")]

theorem spec_C1_witness :
    (∃ m, parseRow nativeNone none rowDur37 = .error m ∧
      strIncludes m "multiple of 15 minutes" = true) ∧
    (∃ out, parseRow nativeNone none rowDur60 = .ok (some out) ∧ out.durationMinutes = 60) := by
  constructor
  · exact (spec_C1.1 nativeNone none rowDur37 37 ⟨1770249600000⟩ (by decide) (by decide)
      (by decide) (by decide) (by decide) (by rfl)).2.1 (by decide) (by decide)
  · exact (spec_C1.1 nativeNone none rowDur60 60 ⟨1770249600000⟩ (by decide) (by decide)
      (by decide) (by decide) (by decide) (by rfl)).2.2 (by decide) (by decide)

/-! ## Claim C2: grid cell-to-row synthesis -/

/-- The row contributed by one day column in the claim's shape: a row is
synthesized precisely for a resolved day date and a positive finite numeric
hour value. -/
def gridCellRow (dayDates : List (Nat × JSDate)) (gridDeveloper : Option String)
    (project task : String) (row : List CellVal) (dc : Nat × Nat) :
    Option (List (String × CellVal)) :=
  (dayDates.lookup dc.1).bind (fun date =>
    match cellHours (row.getD dc.2 .empty) with
    | some h => if 0 < h then some (gridRowObj gridDeveloper project task date h) else none
    | none => none)

theorem gridDay_foldl_eq (dayDates : List (Nat × JSDate)) (dev : Option String)
    (project task : String) (row : List CellVal) :
    ∀ (dayCols : List (Nat × Nat)) (st : GridLoopState),
      (∀ dc ∈ dayCols, (dayDates.lookup dc.1).isSome = true) →
      dayCols.foldl (gridDayStep dayDates dev project task row) st =
        { st with outRows := st.outRows ++
            dayCols.filterMap (gridCellRow dayDates dev project task row) } := by
  intro dayCols
  induction dayCols with
  | nil => intro st _; simp
  | cons dc rest ih =>
    intro st hdates
    have hdc : (dayDates.lookup dc.1).isSome = true := hdates dc (by simp)
    have hrest : ∀ x ∈ rest, (dayDates.lookup x.1).isSome = true := by
      intro x hx; exact hdates x (by simp [hx])
    obtain ⟨date, hdate⟩ := Option.isSome_iff_exists.mp hdc
    rw [List.foldl_cons, List.filterMap_cons]
    cases hch : cellHours (row.getD dc.2 .empty) with
    | none =>
      have hstep : gridDayStep dayDates dev project task row st dc = st := by
        simp only [gridDayStep]
        rw [hch]
      have hcell : gridCellRow dayDates dev project task row dc = none := by
        simp only [gridCellRow]
        rw [hdate]
        dsimp only [Option.bind]
        rw [hch]
      rw [hstep, hcell, ih st hrest]
    | some h =>
      by_cases hpos : 0 < h
      · have hstep : gridDayStep dayDates dev project task row st dc =
            { st with outRows := st.outRows ++ [gridRowObj dev project task date h] } := by
          simp only [gridDayStep]
          rw [hch]
          dsimp only
          rw [if_neg (not_le_of_lt hpos), hdate]
        have hcell : gridCellRow dayDates dev project task row dc =
            some (gridRowObj dev project task date h) := by
          simp only [gridCellRow]
          rw [hdate]
          dsimp only [Option.bind]
          rw [hch]
          dsimp only
          rw [if_pos hpos]
        rw [hstep, hcell, ih _ hrest]
        simp
      · have hstep : gridDayStep dayDates dev project task row st dc = st := by
          simp only [gridDayStep]
          rw [hch]
          dsimp only
          rw [if_pos (le_of_not_lt hpos)]
        have hcell : gridCellRow dayDates dev project task row dc = none := by
          simp only [gridCellRow]
          rw [hdate]
          dsimp only [Option.bind]
          rw [hch]
          dsimp only
          rw [if_neg hpos]
        rw [hstep, hcell, ih st hrest]

theorem filterMap_length_eq_countP {α β : Type} (f : α → Option β) (l : List α) :
    (l.filterMap f).length = l.countP (fun x => (f x).isSome) := by
  induction l with
  | nil => simp
  | cons a t ih =>
    cases hf : f a with
    | none => simp [List.filterMap_cons, hf, List.countP_cons, ih]
    | some b => simp [List.filterMap_cons, hf, List.countP_cons, ih]

/-- **C2 (amended).** For a non-skipped data row of a weekly grid whose day
columns all have resolved calendar dates, exactly one normalized row is
synthesized per day column precisely when the cell holds a positive finite
numeric hour value (no upper bound is applied); the synthesized row is
`gridRowObj`: it carries that day column's calendar date and
`Duration = round(hours * 60)`.  Zero-hour and non-numeric cells produce no
row, and warnings stay untouched. -/
theorem spec_C2 (dayCols : List (Nat × Nat)) (dayDates : List (Nat × JSDate))
    (projectCol taskCol : Nat) (dev : Option String) (st : GridLoopState)
    (row : List CellVal)
    (hproj : cellTrimStr (row.getD projectCol .empty) ≠ "")
    (htask : cellTrimStr (row.getD taskCol .empty) ≠ "")
    (ht1 : strIncludes (jsLower (cellTrimStr (row.getD projectCol .empty))) "total" = false)
    (ht2 : strIncludes (jsLower (cellTrimStr (row.getD taskCol .empty))) "total" = false)
    (ht3 : strIncludes (jsLower (cellTrimStr (row.getD projectCol .empty))) "subtotal" = false)
    (ht4 : strIncludes (jsLower (cellTrimStr (row.getD taskCol .empty))) "subtotal" = false)
    (hdates : ∀ dc ∈ dayCols, (dayDates.lookup dc.1).isSome = true) :
    gridRowStep dayCols dayDates projectCol taskCol dev st row =
      { st with outRows := st.outRows ++
          dayCols.filterMap (gridCellRow dayDates dev
            (cellTrimStr (row.getD projectCol .empty))
            (cellTrimStr (row.getD taskCol .empty)) row) } ∧
    ((gridRowStep dayCols dayDates projectCol taskCol dev st row).outRows.length =
      st.outRows.length +
        dayCols.countP (fun dc =>
          match cellHours (row.getD dc.2 .empty) with
          | some h => decide (0 < h)
          | none => false)) := by
  have key : gridRowStep dayCols dayDates projectCol taskCol dev st row =
      { st with outRows := st.outRows ++
          dayCols.filterMap (gridCellRow dayDates dev
            (cellTrimStr (row.getD projectCol .empty))
            (cellTrimStr (row.getD taskCol .empty)) row) } := by
    unfold gridRowStep
    dsimp only
    rw [if_neg, if_neg, if_neg]
    · exact gridDay_foldl_eq dayDates dev _ _ row dayCols st hdates
    · rintro (h | h)
      · exact hproj h
      · exact htask h
    · rintro (h | h | h | h)
      · rw [ht1] at h; exact Bool.false_ne_true h
      · rw [ht2] at h; exact Bool.false_ne_true h
      · rw [ht3] at h; exact Bool.false_ne_true h
      · rw [ht4] at h; exact Bool.false_ne_true h
    · rintro ⟨h, -⟩
      exact hproj h
  refine ⟨key, ?_⟩
  rw [key]
  simp only [List.length_append, filterMap_length_eq_countP]
  congr 1
  apply List.countP_congr
  intro dc hdc
  have hdk := hdates dc hdc
  obtain ⟨date, hdate⟩ := Option.isSome_iff_exists.mp hdk
  simp only [gridCellRow, hdate, Option.bind_some]
  cases hch : cellHours (row.getD dc.2 .empty) with
  | none => simp
  | some h => by_cases hpos : 0 < h <;> simp [hpos]

/-- Counterexample to C2 as stated: a 1000-hour cell — far beyond the
plausible-hours range `(0, 24]` used elsewhere by the engine — still
synthesizes a normalized row (Duration 60000), where the claim's
"precisely when ... at most the plausible-hours range" demands none. -/
def cexGridMatrix : List (List CellVal) :=
  [[.str "Week Ending", .str "2026-02-06"],
   [.str "Project", .str "Task", .str "Mon", .str "Tue", .str "Wed", .str "Thu", .str "Fri"],
   [.str "P1", .str "T1", .str "1000", .empty, .empty, .empty, .empty]]

theorem spec_C2_cex :
    (convertWeeklyGridToRowObjects nativeNone cexGridMatrix none).rows =
      [gridRowObj none "P1" "T1" ⟨1769990400000⟩ 1000] ∧
    cellHours (.str "1000") = some 1000 ∧ (24 : Rat) < 1000 := by
  refine ⟨by decide, by decide, by norm_num⟩

/-- Witness for C2 (amended): the spec's own worked example — a Mon–Fri grid
row with hours `{Mon: 1, Tue: 0, Wed: 0.25, Fri: 2}` synthesizes exactly the
three rows with durations 60, 15, 120 at the three day dates. -/
def wgDayCols : List (Nat × Nat) := [(0, 2), (1, 3), (2, 4), (3, 5), (4, 6)]

def wgDayDates : List (Nat × JSDate) :=
  [(0, ⟨1769990400000⟩), (1, ⟨1770076800000⟩), (2, ⟨1770163200000⟩),
   (3, ⟨1770249600000⟩), (4, ⟨1770336000000⟩)]

def wgRow : List CellVal :=
  [.str "P1", .str "T1", .str "1", .str "0", .str "0.25", .empty, .str "2"]

theorem spec_C2_witness :
    gridRowStep wgDayCols wgDayDates 0 1 (some "Dev") {} wgRow =
      { outRows :=
          [gridRowObj (some "Dev") "P1" "T1" ⟨1769990400000⟩ 1,
           gridRowObj (some "Dev") "P1" "T1" ⟨1770163200000⟩ (1 / 4),
           gridRowObj (some "Dev") "P1" "T1" ⟨1770336000000⟩ 2]
        warnings := [] } ∧
    (gridRowStep wgDayCols wgDayDates 0 1 (some "Dev") {} wgRow).outRows.length = 0 + 3 := by
  have h := spec_C2 wgDayCols wgDayDates 0 1 (some "Dev") {} wgRow
    (by decide) (by decide) (by decide) (by decide) (by decide) (by decide)
    (by decide)
  refine ⟨?_, ?_⟩
  · rw [h.1]; rfl
  · rw [h.2]; rfl

/-! ## Claim C3: slash-date disambiguation -/

theorem matchSlash_not_numeric {l : List Char} {v : Int × Int × Int}
    (h : matchSlash l = some v) : matchNumericStr l = false := by
  unfold matchSlash at h
  unfold matchNumericStr
  dsimp only at h ⊢
  split at h
  · split at h
    · rename_i r2 heq
      rw [heq]
      simp
    · simp at h
  · simp at h

theorem matchSlash_not_ymd {l : List Char} {v : Int × Int × Int}
    (h : matchSlash l = some v) : matchYMD l = none := by
  unfold matchSlash at h
  unfold matchYMD
  dsimp only at h ⊢
  split at h
  · rename_i hg
    rw [if_neg]
    omega
  · simp at h

theorem matchSlash_ne_nil {v : Int × Int × Int} (h : matchSlash [] = some v) : False := by
  simp [matchSlash] at h

/-- **C3 (amended).** For a trimmed string of the form `a/b/yyyy`,
`parseDate` constructs the date from `new Date(y, month - 1, day)` where:
if the first component exceeds 12 *and the second is a valid month (1–12)*,
then `day = a, month = b`; if the second exceeds 12 *and the first is a
valid month*, then `month = a, day = b`; in every other case (including the
genuinely ambiguous one with both ≤ 12) the US convention `month = a,
day = b` applies.  Out-of-range components are normalized by JS `Date`
field-overflow (`mkDateYMD`).  On the spec's own examples the observable
calendar fields come out as claimed: `"13/02/2026"` is 2026-02-13 and
`"2/5/2026"` is 2026-02-05. -/
theorem spec_C3 :
    (∀ (native : String → Option JSDate) (s : String) (a b y : Int),
      matchSlash (strL (jsTrim s)) = some (a, b, y) →
      ((12 < a ∧ 1 ≤ b ∧ b ≤ 12) →
        parseDate native (.str s) = mkDateYMD y (b - 1) a) ∧
      (¬(12 < a ∧ 1 ≤ b ∧ b ≤ 12) → (12 < b ∧ 1 ≤ a ∧ a ≤ 12) →
        parseDate native (.str s) = mkDateYMD y (a - 1) b) ∧
      (¬(12 < a ∧ 1 ≤ b ∧ b ≤ 12) → ¬(12 < b ∧ 1 ≤ a ∧ a ≤ 12) →
        parseDate native (.str s) = mkDateYMD y (a - 1) b)) ∧
    (parseDate nativeNone (.str "13/02/2026") = some ⟨1770940800000⟩ ∧
      JSDate.getFullYear ⟨1770940800000⟩ = 2026 ∧
      JSDate.getMonth ⟨1770940800000⟩ = 1 ∧
      JSDate.getDate ⟨1770940800000⟩ = 13) ∧
    (parseDate nativeNone (.str "2/5/2026") = some ⟨1770249600000⟩ ∧
      JSDate.getFullYear ⟨1770249600000⟩ = 2026 ∧
      JSDate.getMonth ⟨1770249600000⟩ = 1 ∧
      JSDate.getDate ⟨1770249600000⟩ = 5) := by
  refine ⟨?_, by decide, by decide⟩
  intro native s a b y h
  have hne : jsTrim s ≠ "" := by
    intro he
    rw [he] at h
    exact matchSlash_ne_nil h
  have key : parseDate native (.str s) =
      (if 12 < a ∧ 1 ≤ b ∧ b ≤ 12 then mkDateYMD y (b - 1) a
       else if 12 < b ∧ 1 ≤ a ∧ a ≤ 12 then mkDateYMD y (a - 1) b
       else mkDateYMD y (a - 1) b) := by
    unfold parseDate
    dsimp only
    rw [if_neg hne, matchSlash_not_numeric h, matchSlash_not_ymd h, h]
    simp only [Bool.false_eq_true, if_false]
  refine ⟨?_, ?_, ?_⟩
  · intro hc
    rw [key, if_pos hc]
  · intro hnc hc
    rw [key, if_neg hnc, if_pos hc]
  · intro hnc hnc2
    rw [key, if_neg hnc, if_neg hnc2]

/-- Counterexample to C3 as stated: `"13/14/2026"` has first component
`a = 13 > 12`, so the claim demands a result with day 13 and month 14; but
since the second component is not a valid month, the code falls through to
the US default `month = 13, day = 14`, which JS normalizes to 2027-01-14 —
the result's day is 14, not 13. -/
theorem spec_C3_cex :
    parseDate nativeNone (.str "13/14/2026") = some ⟨1799884800000⟩ ∧
    JSDate.getDate ⟨1799884800000⟩ = 14 ∧
    JSDate.getMonth ⟨1799884800000⟩ = 0 ∧
    JSDate.getFullYear ⟨1799884800000⟩ = 2027 := by
  decide

/-- Witness for C3 (amended): the day-greater-than-12 branch applied to
`"13/02/2026"` yields `new Date(2026, 1, 13)`. -/
theorem spec_C3_witness :
    parseDate nativeNone (.str "13/02/2026") = mkDateYMD 2026 1 13 :=
  ((spec_C3.1 nativeNone "13/02/2026" 13 2 2026 (by decide)).1 (by decide))

/-! ## Claim C4: spreadsheet serial day-counts -/

theorem matchNumericStr_ne_nil (h : matchNumericStr [] = true) : False := by
  simp [matchNumericStr] at h

/-- **C4 (amended).** A finite numeric cell value `n` is treated as a
spreadsheet serial day-count: whenever the instant
`(n − 25569) × 86,400,000 ms` lies within the representable JS `Date` range
(magnitude at most 8.64e15 ms), `parseDate` returns exactly that instant
(truncated to whole milliseconds); outside that range it returns null.  A
purely numeric string follows the same serial rule exactly when its value
lies in `20000..80000` and otherwise returns null without reaching the
generic date-parsing fallback; in particular the string `"1"` parses to
null. -/
theorem spec_C4 :
    (∀ (native : String → Option JSDate) (n : Rat),
      |(n - 25569) * 86400000| ≤ maxJSTime →
      parseDate native (.num n) = some ⟨ratTrunc ((n - 25569) * 86400000)⟩) ∧
    (∀ (native : String → Option JSDate) (n : Rat),
      maxJSTime < |(n - 25569) * 86400000| →
      parseDate native (.num n) = none) ∧
    (∀ (native : String → Option JSDate) (s : String) (n : Rat),
      matchNumericStr (strL (jsTrim s)) = true →
      jsNumber (jsTrim s) = some n →
      ((20000 ≤ n ∧ n ≤ 80000 →
        parseDate native (.str s) = some ⟨ratTrunc ((n - 25569) * 86400000)⟩) ∧
       (¬(20000 ≤ n ∧ n ≤ 80000) → parseDate native (.str s) = none))) ∧
    (parseDate nativeNone (.str "1") = none) := by
  refine ⟨?_, ?_, ?_, by decide⟩
  · intro native n hb
    show timeClip ((n - 25569) * 86400000) = _
    unfold timeClip
    rw [if_pos hb]
  · intro native n hb
    show timeClip ((n - 25569) * 86400000) = _
    unfold timeClip
    rw [if_neg (not_le_of_lt hb)]
  · intro native s n hm hn
    have hne : jsTrim s ≠ "" := by
      intro he
      rw [he] at hm
      exact matchNumericStr_ne_nil hm
    have key : parseDate native (.str s) =
        (if 20000 ≤ n ∧ n ≤ 80000 then timeClip ((n - 25569) * 86400000) else none) := by
      unfold parseDate
      dsimp only
      rw [if_neg hne, hm, if_pos rfl, hn]
    constructor
    · intro hr
      rw [key, if_pos hr]
      unfold timeClip
      rw [if_pos]
      rw [abs_le]
      unfold maxJSTime
      constructor <;> nlinarith [hr.1, hr.2]
    · intro hr
      rw [key, if_neg hr]

/-- Counterexample to C4 as stated: the finite numeric value `2 × 10^8`
yields an instant of ≈1.7 × 10^16 ms, beyond the JS `Date` range, so
`parseDate` returns null instead of the claimed instant. -/
theorem spec_C4_cex : parseDate nativeNone (.num 200000000) = none := by decide

/-- Witness for C4 (amended): serial 46058 (2026-02-05) converts to
`(46058 − 25569) × 86,400,000 = 1,770,249,600,000 ms`, both as a numeric
cell and as the numeric string `"46058"`. -/
theorem spec_C4_witness :
    parseDate nativeNone (.num 46058) = some ⟨1770249600000⟩ ∧
    parseDate nativeNone (.str "46058") = some ⟨1770249600000⟩ := by
  constructor
  · have h := spec_C4.1 nativeNone 46058 (by norm_num [maxJSTime])
    rw [h]
    norm_num [ratTrunc]
  · have h := (spec_C4.2.2.1 nativeNone "46058" 46058 (by decide) (by decide)).1
      (by norm_num)
    rw [h]
    norm_num [ratTrunc]

/-! ## Claim C5: sheet scoring and selection -/

/-- Integer indicator of a boolean. -/
def bi (b : Bool) : Int := if b then 1 else 0

theorem pick_cases (b cur : SheetAnalysis) : pick b cur = b ∨ pick b cur = cur := by
  unfold pick
  split_ifs <;> simp

theorem pick_left (b cur : SheetAnalysis) :
    b.score ≤ (pick b cur).score ∧
    (b.score = (pick b cur).score → b.bestMatchCount ≤ (pick b cur).bestMatchCount) := by
  unfold pick
  split_ifs with h1 h2 <;> exact ⟨by omega, fun h => by omega⟩

theorem pick_right (b cur : SheetAnalysis) :
    cur.score ≤ (pick b cur).score ∧
    (cur.score = (pick b cur).score → cur.bestMatchCount ≤ (pick b cur).bestMatchCount) := by
  unfold pick
  split_ifs with h1 h2 <;> exact ⟨by omega, fun h => by omega⟩

theorem foldl_selectStep_spec (l : List SheetAnalysis) :
    ∀ b : SheetAnalysis,
      ∃ sel, l.foldl selectStep (some b) = some sel ∧
        (sel = b ∨ sel ∈ l) ∧
        b.score ≤ sel.score ∧
        (b.score = sel.score → b.bestMatchCount ≤ sel.bestMatchCount) ∧
        (∀ a ∈ l, a.score ≤ sel.score ∧
          (a.score = sel.score → a.bestMatchCount ≤ sel.bestMatchCount)) := by
  induction l with
  | nil =>
    intro b
    exact ⟨b, rfl, Or.inl rfl, le_refl _, fun _ => le_refl _, by simp⟩
  | cons a t ih =>
    intro b
    obtain ⟨sel, hfold, hmem, hble, hbmc, hall⟩ := ih (pick b a)
    have hpl := pick_left b a
    have hpr := pick_right b a
    refine ⟨sel, ?_, ?_, ?_, ?_, ?_⟩
    · simpa [selectStep] using hfold
    · rcases hmem with hm | hm
      · rcases pick_cases b a with hp | hp
        · exact Or.inl (hm.trans hp)
        · exact Or.inr (by simp [hm, hp])
      · exact Or.inr (by simp [hm])
    · exact hpl.1.trans hble
    · intro he
      have hp1 := hpl.1
      have e1 : b.score = (pick b a).score := by omega
      have e2 : (pick b a).score = sel.score := by omega
      exact le_trans (hpl.2 e1) (hbmc e2)
    · intro x hx
      rcases List.mem_cons.mp hx with hx | hx
      · subst hx
        have hp1 := hpr.1
        refine ⟨hpr.1.trans hble, fun he => ?_⟩
        have e1 : x.score = (pick b x).score := by omega
        have e2 : (pick b x).score = sel.score := by omega
        exact le_trans (hpr.2 e1) (hbmc e2)
      · exact hall x hx

/-- When no later sheet strictly beats the first (equal scores and header
match counts), the fold keeps the first. -/
theorem foldl_selectStep_const (l : List SheetAnalysis) (b : SheetAnalysis)
    (h : ∀ a ∈ l, a.score = b.score ∧ a.bestMatchCount = b.bestMatchCount) :
    l.foldl selectStep (some b) = some b := by
  induction l with
  | nil => rfl
  | cons a t ih =>
    have ha := h a (by simp)
    have hpick : pick b a = b := by
      unfold pick
      rw [if_neg (by omega), if_neg (by omega)]
    rw [List.foldl_cons]
    show List.foldl selectStep (some (pick b a)) t = some b
    rw [hpick]
    exact ih (fun x hx => h x (by simp [hx]))

theorem analyzeSheet_empty (nm : String) :
    (analyzeSheet nm []).score = (if isMetadataName nm then (-2 : Int) else 0) ∧
    (analyzeSheet nm []).bestMatchCount = 0 := by
  unfold analyzeSheet
  dsimp only
  refine ⟨?_, rfl⟩
  have h1 : looksLikeWeeklyGridB [] = false := rfl
  have h2 : hasWeekEndingLabelB [] = false := rfl
  have h3 : hasProjectCodeHeaderB [] = false := rfl
  have h4 : hourLikeCount [] = 0 := rfl
  have h5 : analyzeDefaultDeveloper [] = none := rfl
  have h6 : bestHeader [] = (-1, 0) := rfl
  rw [h1, h2, h3, h4, h5, h6]
  simp only [Bool.false_eq_true, if_false, Option.isSome_none]
  rw [if_neg (by omega)]
  split_ifs <;> decide

/-- **C5 (amended).** Sheet selection: (a) every sheet's score is exactly
`headerMatches + 3·weekdayRow + 2·weekEndingLabel + 2·projectCodeHeader +
2·(hourLike ≥ 3) + 1·developerLabel − 2·metadataName`; (b) the selected
sheet always attains the maximum score; (c) ties in score are broken toward
the higher header-match count; (d) for an otherwise-empty workbook the first
sheet is selected provided the metadata-name penalty does not differentiate
the sheets (on full ties the reduce keeps the earlier sheet; a
metadata-named empty first sheet loses to a later plainly-named one). -/
theorem spec_C5 :
    (∀ (nm : String) (mx : List (List CellVal)),
      (analyzeSheet nm mx).score =
        ((analyzeSheet nm mx).bestMatchCount : Int) +
        3 * bi (looksLikeWeeklyGridB mx) +
        2 * bi (hasWeekEndingLabelB mx) +
        2 * bi (hasProjectCodeHeaderB mx) +
        2 * bi (decide (3 ≤ hourLikeCount mx)) +
        1 * bi (analyzeDefaultDeveloper mx).isSome -
        2 * bi (isMetadataName nm)) ∧
    (∀ (w : String × List (List CellVal)) (rest : List (String × List (List CellVal))),
      ∃ sel, selectSheet (w :: rest) = some sel ∧
        sel ∈ (w :: rest).map (fun p => analyzeSheet p.1 p.2) ∧
        ∀ a ∈ (w :: rest).map (fun p => analyzeSheet p.1 p.2),
          a.score ≤ sel.score ∧
          (a.score = sel.score → a.bestMatchCount ≤ sel.bestMatchCount)) ∧
    (∀ (w : String × List (List CellVal)) (rest : List (String × List (List CellVal))),
      (∀ p ∈ w :: rest, p.2 = ([] : List (List CellVal))) →
      (∀ p ∈ w :: rest, isMetadataName p.1 = isMetadataName w.1) →
      selectSheet (w :: rest) = some (analyzeSheet w.1 w.2)) := by
  refine ⟨?_, ?_, ?_⟩
  · intro nm mx
    unfold analyzeSheet bi
    dsimp only
    split_ifs <;> simp_all <;> omega
  · intro w rest
    obtain ⟨sel, hfold, hmem, hble, hbmc, hall⟩ :=
      foldl_selectStep_spec (rest.map (fun p => analyzeSheet p.1 p.2)) (analyzeSheet w.1 w.2)
    refine ⟨sel, ?_, ?_, ?_⟩
    · simpa [selectSheet] using hfold
    · rcases hmem with hm | hm
      · simp [hm]
      · simp [hm]
    · intro a ha
      rw [List.map_cons] at ha
      rcases List.mem_cons.mp ha with ha' | ha'
      · rw [ha']
        exact ⟨hble, hbmc⟩
      · exact hall a ha'
  · intro w rest hempty hmeta
    have hw : w.2 = [] := hempty w (by simp)
    have hkey : ∀ a ∈ rest.map (fun p => analyzeSheet p.1 p.2),
        a.score = (analyzeSheet w.1 w.2).score ∧
        a.bestMatchCount = (analyzeSheet w.1 w.2).bestMatchCount := by
      intro a ha
      obtain ⟨p, hp, hpa⟩ := List.mem_map.mp ha
      have hpe : p.2 = [] := hempty p (by simp [hp])
      have hpm : isMetadataName p.1 = isMetadataName w.1 := hmeta p (by simp [hp])
      obtain ⟨hs1, hm1⟩ := analyzeSheet_empty p.1
      obtain ⟨hs2, hm2⟩ := analyzeSheet_empty w.1
      rw [← hpa, hpe, hw]
      rw [hs1, hs2, hm1, hm2, hpm]
      exact ⟨rfl, rfl⟩
    simpa [selectSheet] using foldl_selectStep_const _ _ hkey

/-- Counterexample to C5 as stated: an otherwise-empty workbook whose first
sheet bears a metadata-like name — the metadata penalty makes the second
(empty) sheet win, so selection does not default to the first sheet. -/
theorem spec_C5_cex :
    (selectSheet [("lookup", []), ("a", [])]).map SheetAnalysis.name = some "a" ∧
    (analyzeSheet "lookup" []).score = -2 ∧
    (analyzeSheet "a" []).score = 0 := by
  refine ⟨?_, by decide, by decide⟩
  rfl

/-- Witness for C5 (amended): maximality/tie-break instantiated on the
spec's metadata-vs-timesheet workbook, and the tie default instantiated on a
fully tied empty workbook. -/
def wbVariable : String × List (List CellVal) := ("Variable", [])

def wbTimesheet : String × List (List CellVal) :=
  ("Timesheet", [[.str "Developer", .str "Project", .str "Date", .str "Duration"]])

theorem spec_C5_witness :
    (∃ sel, selectSheet [wbVariable, wbTimesheet] = some sel ∧
      sel ∈ [wbVariable, wbTimesheet].map (fun p => analyzeSheet p.1 p.2) ∧
      ∀ a ∈ [wbVariable, wbTimesheet].map (fun p => analyzeSheet p.1 p.2),
        a.score ≤ sel.score ∧
        (a.score = sel.score → a.bestMatchCount ≤ sel.bestMatchCount)) ∧
    selectSheet [("a", ([] : List (List CellVal))), ("b", [])] =
      some (analyzeSheet "a" []) := by
  constructor
  · exact spec_C5.2.1 wbVariable [wbTimesheet]
  · exact spec_C5.2.2 ("a", []) [("b", [])] (by decide) (by decide)

/-! ## Claim C6: the preview invariant -/

def rowDur0 : List (String × CellVal) :=
  [("Developer", .str "A"), ("Project", .str "P"), ("Date", .str "2026-02-05"),
   ("Duration", .str "0")]

theorem parseRowsStep_min10 (native : String → Option JSDate) (dd : Option String)
    (st : RowsState) (x : Nat × List (String × CellVal))
    (h : st.preview.length = min 10 st.entries.length) :
    (parseRowsStep native dd st x).preview.length =
      min 10 (parseRowsStep native dd st x).entries.length := by
  unfold parseRowsStep
  dsimp only
  split_ifs <;> split <;> simp_all <;> omega

theorem foldl_parseRowsStep_min10 (native : String → Option JSDate) (dd : Option String)
    (l : List (Nat × List (String × CellVal))) :
    ∀ st : RowsState, st.preview.length = min 10 st.entries.length →
      (l.foldl (parseRowsStep native dd) st).preview.length =
        min 10 (l.foldl (parseRowsStep native dd) st).entries.length := by
  induction l with
  | nil => intro st h; exact h
  | cons x t ih =>
    intro st h
    rw [List.foldl_cons]
    exact ih _ (parseRowsStep_min10 native dd st x h)

theorem parseRows_min10 (native : String → Option JSDate) (pe : String → Bool)
    (rows : List (List (String × CellVal))) (dd : Option String)
    (first : Nat) (mode : Mode) :
    (parseRows native pe rows dd first mode).preview.length =
      min 10 (parseRows native pe rows dd first mode).entries.length := by
  unfold parseRows
  dsimp only
  exact foldl_parseRowsStep_min10 native dd (numberRows first rows) {} (by simp)

theorem finalize_entries_preview (mode : Mode) (pe : String → Bool) (nm : String)
    (codes : List String) (parsed : ParseResult) :
    (finalize mode pe nm codes parsed).entries = parsed.entries ∧
    (finalize mode pe nm codes parsed).preview = parsed.preview := by
  unfold finalize
  dsimp only
  exact ⟨rfl, rfl⟩

theorem finalize_parseRows_min10 (mode : Mode) (pe : String → Bool) (nm : String)
    (codes : List String) (native : String → Option JSDate)
    (rows : List (List (String × CellVal))) (dd : Option String) (first : Nat) :
    (finalize mode pe nm codes (parseRows native pe rows dd first mode)).preview.length =
      min 10 (finalize mode pe nm codes
        (parseRows native pe rows dd first mode)).entries.length := by
  obtain ⟨he, hp⟩ := finalize_entries_preview mode pe nm codes
    (parseRows native pe rows dd first mode)
  rw [he, hp]
  exact parseRows_min10 native pe rows dd first mode

/-- **C6.** Every Parse Result of the engine satisfies
`preview.length = min(10, entries.length)`; concretely, one valid row plus
one zero-duration row yields `entries.length = 1`, `preview.length = 1` and
`errors.length = 1`. -/
theorem spec_C6 :
    (∀ (native : String → Option JSDate) (pe : String → Bool) (mode : Mode)
        (sel : SheetAnalysis) (rows : List (List (String × CellVal))),
      (parseFilePipeline native pe mode sel rows).preview.length =
        min 10 (parseFilePipeline native pe mode sel rows).entries.length) ∧
    ((parseRows nativeNone (fun _ => false) [rowDur60, rowDur0] none 2
        Mode.importMode).entries.length = 1 ∧
     (parseRows nativeNone (fun _ => false) [rowDur60, rowDur0] none 2
        Mode.importMode).preview.length = 1 ∧
     (parseRows nativeNone (fun _ => false) [rowDur60, rowDur0] none 2
        Mode.importMode).errors.length = 1) := by
  constructor
  · intro native pe mode sel rows
    unfold parseFilePipeline
    dsimp only
    split_ifs <;> first
      | rfl
      | apply finalize_parseRows_min10
  · exact ⟨by decide, by decide, by decide⟩

/-! ## Claim C7: error-message prefixes -/

/-- A row-level error string: `"Row {n}: {reason}"`. -/
def isRowErrorMsg (e : String) : Prop :=
  ∃ n : Nat, strStarts e ("Row " ++ toString n ++ ": ") = true

/-- The workbook-level `"Invalid projects (...)"` summary line. -/
def isInvalidProjectsMsg (e : String) : Prop :=
  strStarts e "Invalid projects (" = true

theorem parseRowsStep_errors (native : String → Option JSDate) (dd : Option String)
    (st : RowsState) (x : Nat × List (String × CellVal))
    (h : ∀ e ∈ st.errors, isRowErrorMsg e) :
    ∀ e ∈ (parseRowsStep native dd st x).errors, isRowErrorMsg e := by
  unfold parseRowsStep
  dsimp only
  split_ifs <;> split <;> simp_all <;>
    (intro e he
     rcases he with he | he
     · exact h e he
     · subst he
       exact ⟨x.1, strStarts_append ("Row " ++ toString x.1 ++ ": ") _⟩)

theorem foldl_parseRowsStep_errors (native : String → Option JSDate) (dd : Option String)
    (l : List (Nat × List (String × CellVal))) :
    ∀ st : RowsState, (∀ e ∈ st.errors, isRowErrorMsg e) →
      ∀ e ∈ (l.foldl (parseRowsStep native dd) st).errors, isRowErrorMsg e := by
  induction l with
  | nil => intro st h; exact h
  | cons x t ih =>
    intro st h
    rw [List.foldl_cons]
    exact ih _ (parseRowsStep_errors native dd st x h)

theorem strStarts_invalid_line (a b c : String) :
    strStarts ("Invalid projects (" ++ a ++ "/" ++ b ++ "): " ++ c)
      "Invalid projects (" = true := by
  have h := strStarts_append "Invalid projects (" (a ++ ("/" ++ (b ++ ("): " ++ c))))
  have e : "Invalid projects (" ++ a ++ "/" ++ b ++ "): " ++ c =
      "Invalid projects (" ++ (a ++ ("/" ++ (b ++ ("): " ++ c)))) := by
    simp [String.append_assoc]
  rw [e]
  exact h

theorem parseRows_errors (native : String → Option JSDate) (pe : String → Bool)
    (rows : List (List (String × CellVal))) (dd : Option String)
    (first : Nat) (mode : Mode) :
    ∀ e ∈ (parseRows native pe rows dd first mode).errors,
      isRowErrorMsg e ∨ isInvalidProjectsMsg e := by
  unfold parseRows
  dsimp only
  intro e he
  split_ifs at he <;>
    first
      | (rcases List.mem_cons.mp he with he | he
         · subst he
           exact Or.inr (strStarts_invalid_line _ _ _)
         · exact Or.inl (foldl_parseRowsStep_errors native dd _ {} (by simp) e he))
      | exact Or.inl (foldl_parseRowsStep_errors native dd _ {} (by simp) e he)

theorem finalize_errors (mode : Mode) (pe : String → Bool) (nm : String)
    (codes : List String) (parsed : ParseResult)
    (h : ∀ e ∈ parsed.errors, isRowErrorMsg e ∨ isInvalidProjectsMsg e) :
    ∀ e ∈ (finalize mode pe nm codes parsed).errors,
      isRowErrorMsg e ∨ isInvalidProjectsMsg e := by
  unfold finalize
  dsimp only
  intro e he
  split_ifs at he <;>
    first
      | (rcases List.mem_cons.mp he with he | he
         · subst he
           exact Or.inr (strStarts_invalid_line _ _ _)
         · exact h e (List.mem_of_mem_filter he))
      | exact h e (List.mem_of_mem_filter he)

/-- **C7 (amended).** Whenever `parseFile` does not end in a
workbook-structure failure, every string of the Parse Result's `errors`
array is either prefixed `"Row {n}: "` for some row number `n` or is the
workbook-level `"Invalid projects ("` summary line; structure-failure
results instead carry unprefixed workbook-level explanations (see the
counterexample). -/
theorem spec_C7 (native : String → Option JSDate) (pe : String → Bool) (mode : Mode)
    (sel : SheetAnalysis) (rows : List (List (String × CellVal)))
    (h : structureFailed native sel rows = false) :
    ∀ e ∈ (parseFilePipeline native pe mode sel rows).errors,
      isRowErrorMsg e ∨ isInvalidProjectsMsg e := by
  unfold structureFailed at h
  unfold parseFilePipeline
  dsimp only
  by_cases hgp : gridPathTaken sel rows
  · rw [if_pos hgp] at h ⊢
    simp only [ne_eq, decide_not, Bool.not_eq_false', decide_eq_true_eq] at h
    rw [if_neg (by simp [h])]
    exact finalize_errors _ _ _ _ _ (parseRows_errors _ _ _ _ _ _)
  · rw [if_neg hgp] at h ⊢
    simp only [decide_not, Bool.not_eq_false', decide_eq_true_eq] at h
    rw [if_neg (by simp [h])]
    exact finalize_errors _ _ _ _ _ (parseRows_errors _ _ _ _ _ _)

/-- Counterexample to C7 as stated: a workbook with no recognizable header
row returns a Parse Result whose first error is a workbook-level structure
message that is neither row-prefixed nor the `"Invalid projects ("` line. -/
def emptySheetSel : SheetAnalysis := analyzeSheet "Sheet1" []

theorem spec_C7_cex :
    ∃ e rest,
      (parseFilePipeline nativeNone (fun _ => false) Mode.importMode emptySheetSel
        []).errors = e :: rest ∧ ¬ isRowErrorMsg e ∧ ¬ isInvalidProjectsMsg e := by
  refine ⟨_, _, rfl, ?_, ?_⟩
  · rintro ⟨n, hpre⟩
    have hrow : strStarts
        "Could not detect a header row with the expected columns. Expected columns like Developer, Project, Task, Date, Duration (or Start/End), Notes."
        "Row " = true := by
      have e : ("Row " ++ toString n ++ ": ") = "Row " ++ (toString n ++ ": ") := by
        simp [String.append_assoc]
      rw [e] at hpre
      exact strStarts_of_append_left hpre
    exact absurd hrow (by decide)
  · intro hc
    have hc' : strStarts
        "Could not detect a header row with the expected columns. Expected columns like Developer, Project, Task, Date, Duration (or Start/End), Notes."
        "Invalid projects (" = true := hc
    exact absurd hc' (by decide)

/-- Witness for C7 (amended): a parse with one failing row yields exactly a
row-prefixed error. -/
theorem spec_C7_witness :
    (parseFilePipeline nativeNone (fun _ => false) Mode.importMode emptySheetSel
      [rowDur37]).errors = ["Row 2: Duration must be a multiple of 15 minutes"] ∧
    (isRowErrorMsg "Row 2: Duration must be a multiple of 15 minutes" ∨
      isInvalidProjectsMsg "Row 2: Duration must be a multiple of 15 minutes") := by
  refine ⟨by decide, ?_⟩
  exact spec_C7 nativeNone (fun _ => false) Mode.importMode emptySheetSel [rowDur37]
    (by decide) "Row 2: Duration must be a multiple of 15 minutes" (by decide)

/-! ## Claim C8: structure failures return empty results with errors -/

/-- **C8.** Whenever a workbook-structure error occurs (the grid converter
reported errors — covering the no-day-columns, no-dates, no-project-column
and zero-positive-cells cases — or neither a grid nor a header row was
recognizable), `parseFile` returns empty `entries` and `preview` together
with at least one explanatory error; it never returns entries alongside a
structure error. -/
theorem spec_C8 (native : String → Option JSDate) (pe : String → Bool) (mode : Mode)
    (sel : SheetAnalysis) (rows : List (List (String × CellVal)))
    (h : structureFailed native sel rows = true) :
    (parseFilePipeline native pe mode sel rows).entries = [] ∧
    (parseFilePipeline native pe mode sel rows).preview = [] ∧
    (parseFilePipeline native pe mode sel rows).errors ≠ [] := by
  unfold structureFailed at h
  unfold parseFilePipeline
  dsimp only
  by_cases hgp : gridPathTaken sel rows
  · rw [if_pos hgp] at h ⊢
    simp only [ne_eq, decide_not, Bool.not_eq_true', decide_eq_true_eq] at h
    rw [if_pos (by simpa using h)]
    exact ⟨rfl, rfl, by simpa [gridErrorResult] using h⟩
  · rw [if_neg hgp] at h ⊢
    simp only [decide_eq_true_eq] at h
    rw [if_pos (by simpa using h)]
    exact ⟨rfl, rfl, by simp [noHeaderResult]⟩

/-- Witness for C8: an empty sheet (no headers, no grid) yields the
empty-result structure failure. -/
theorem spec_C8_witness :
    (parseFilePipeline nativeNone (fun _ => false) Mode.importMode emptySheetSel
      []).entries = [] ∧
    (parseFilePipeline nativeNone (fun _ => false) Mode.importMode emptySheetSel
      []).preview = [] ∧
    (parseFilePipeline nativeNone (fun _ => false) Mode.importMode emptySheetSel
      []).errors ≠ [] :=
  spec_C8 nativeNone (fun _ => false) Mode.importMode emptySheetSel [] (by decide)

end Vandura
